import Mathlib

/-!
Verification development for the campus SSO / OAuth2 platform.

The definitions below are a shallow embedding of the Python sources:

* `src/auth-server/app.py`   — identity and SSO authority (login, consent,
  authorization codes, token issuance and validation, certificates);
* `src/common/security.py`   — password hashing and the rate limiter;
* `src/cloud-api/app.py`     — share-link creation and anonymous access;
* `src/academic-api/cache.py` — the in-process memory cache.

Python dicts (which preserve insertion order and have unique keys) are
modelled as association lists with in-place update (`aset`), first-match
lookup (`alookup`) and first-match removal (`aerase`).  Wall-clock time
(`time.time()` / `datetime.utcnow()`) is modelled as an integer number of
seconds passed explicitly to each operation.  Randomly generated values
(uuid4 codes, tokens, session ids) are passed in as explicit arguments.
Third-party cryptographic primitives that are not part of this repository
(werkzeug password hashes, `hashlib.pbkdf2_hmac`, HS256 JWT signing) are
modelled as ideal primitives: encoding is injective, verification succeeds
exactly on equal inputs, and a JWT decodes to the payload it was created
from whenever it is unexpired.  The theorems at the end of the file settle
the frozen claims C1 to C10.
-/

/-- First-match lookup in an association list, the model of `dict.get`. -/
def alookup {α : Type} : List (String × α) → String → Option α
  | [], _ => none
  | p :: rest, k => if p.1 = k then some p.2 else alookup rest k

/-- In-place update or append, the model of `dict[k] = v` (a Python dict
keeps the position of an existing key and appends a fresh one). -/
def aset {α : Type} : List (String × α) → String → α → List (String × α)
  | [], k, v => [(k, v)]
  | p :: rest, k, v => if p.1 = k then (k, v) :: rest else p :: aset rest k v

/-- First-match removal, the model of `dict.pop(k, None)` / `del dict[k]`. -/
def aerase {α : Type} : List (String × α) → String → List (String × α)
  | [], _ => []
  | p :: rest, k => if p.1 = k then rest else p :: aerase rest k

/-- The key column of an association list. -/
def akeys {α : Type} (l : List (String × α)) : List String := l.map (·.1)

/-- First element satisfying a decidable predicate, the model of the
`query(...).first()` / `next((x for x in xs if p x), None)` idiom. -/
def lfind {α : Type} (p : α → Prop) [DecidablePred p] : List α → Option α
  | [] => none
  | x :: rest => if p x then some x else lfind p rest

/-- Replace the first element satisfying `p` by `g` applied to it; the model
of finding a row with `.first()` and mutating it in place. -/
def update_first {α : Type} (p : α → Prop) [DecidablePred p] (g : α → α) :
    List α → List α
  | [] => []
  | x :: rest => if p x then g x :: rest else x :: update_first p g rest

/-- Python truthiness of an optional string (`if s:`): `None` and the empty
string are falsy. -/
def strTruthy : Option String → Bool
  | none => false
  | some s => !(s == "")

/-- Python `str.lower()`, modelled as the character-wise lowercase map
(identical to it on the ASCII hex fingerprints this system handles). -/
def str_toLower (s : String) : String := String.mk (s.data.map Char.toLower)

namespace AuthServer

/-- Row of the `users` table (src/auth-server/app.py, class User). -/
structure User where
  id : Nat
  username : String
  password_hash : String
  role : String
deriving DecidableEq

/-- Row of the `certificates` table (src/auth-server/app.py, class
Certificate). -/
structure Certificate where
  id : Nat
  user_id : Nat
  serial_number : String
  fingerprint : String
  status : String
deriving DecidableEq

/-- Row of the `oauth_clients` table, with `redirect_uris` and `scopes`
already JSON-decoded (the model of `get_redirect_uris` / `get_scopes`). -/
structure OAuthClient where
  client_id : String
  client_secret : String
  name : String
  redirect_uris : List String
  scopes : List String
deriving DecidableEq

/-- Value stored in the in-memory `SESSIONS` dict by `login`. -/
structure SessionData where
  username : String
  role : String
  issued_at : Int
  fingerprint : Option String
deriving DecidableEq

/-- Value stored in the in-memory `AUTH_CODES` dict by `approve_consent`. -/
structure CodeData where
  username : String
  client_id : String
  expires_at : Int
  fingerprint : Option String
deriving DecidableEq

/-- Value stored in the in-memory `REFRESH_TOKENS` dict by `_issue_tokens`. -/
structure RefreshData where
  username : String
  client_id : String
  exp : Int
  fingerprint : Option String
  scope : List String
  role : Option String
deriving DecidableEq

/-- Claims of an HS256 access token built by `_issue_tokens`.  The signed
string representation is modelled symbolically by the payload itself (the
signing key is a fixed process-wide secret, so encoding is injective and
signature verification always succeeds for tokens minted by the server). -/
structure AccessPayload where
  sub : String
  client_id : String
  iat : Int
  exp : Int
  scope : List String
  fp : Option String
  role : Option String
deriving DecidableEq

/-- Combined database and process-local state of the auth server. -/
structure AuthState where
  users : List User
  certificates : List Certificate
  oauth_clients : List OAuthClient
  SESSIONS : List (String × SessionData)
  AUTH_CODES : List (String × CodeData)
  REFRESH_TOKENS : List (String × RefreshData)
deriving DecidableEq

/-- `ACCESS_EXPIRES_SECONDS` from src/auth-server/app.py. -/
def ACCESS_EXPIRES_SECONDS : Int := 300

/-- `REFRESH_EXPIRES_SECONDS` from src/auth-server/app.py. -/
def REFRESH_EXPIRES_SECONDS : Int := 3600

/-- Ideal model of werkzeug `generate_password_hash`: the stored hash
determines the password and `check_password_hash` succeeds exactly on the
matching password.  (werkzeug is a third-party dependency, not code of this
repository; only this boundary behavior is relied on.) -/
def wz_hash (password : String) : String := "werkzeug-pbkdf2$" ++ password

/-- Ideal model of werkzeug `check_password_hash`. -/
def check_password_hash (pwhash password : String) : Bool :=
  pwhash == wz_hash password

/-- `_fingerprint_from_headers` (src/auth-server/app.py lines 88-92): the
`X-Client-Cert-Fingerprint` header, lower-cased, empty and missing values
both giving `None`. -/
def fingerprint_from_headers (h : Option String) : Option String :=
  match h with
  | some fp => if fp = "" then none else some (str_toLower fp)
  | none => none

/-- Result of `POST /auth/login`. -/
inductive LoginResult where
  | ok (session_token : String) (username : String) (role : String)
  | err (msg : String) (status : Nat)
deriving DecidableEq

/-- `login` (src/auth-server/app.py lines 195-253).  `newSession` models the
fresh `uuid4` session token; `now` models `time.time()`.  The request fields
`username` and `password` are taken as present (the claims under study all
supply them). -/
def login (st : AuthState) (username password : String)
    (fpHeader : Option String) (now : Int) (newSession : String) :
    LoginResult × AuthState :=
  match lfind (fun u => u.username = username) st.users with
  | none => (.err "no userser found\nplease check your username" 401, st)
  | some user =>
    if check_password_hash user.password_hash password = false then
      (.err "wrong password" 401, st)
    else
      let request_fp := fingerprint_from_headers fpHeader
      let sd : SessionData :=
        { username := username, role := user.role, issued_at := now,
          fingerprint := request_fp }
      let success : LoginResult × AuthState :=
        (.ok newSession username user.role,
         { st with SESSIONS := aset st.SESSIONS newSession sd })
      match request_fp with
      | some fp =>
        match lfind (fun c => c.fingerprint = fp) st.certificates with
        | some cert =>
          if cert.user_id ≠ user.id then
            (.err "Certificate does not belong to this user" 403, st)
          else if cert.status = "revoked" then
            (.err "Certificate has been REVOKED" 403, st)
          else success
        | none =>
          (.err "Unknown certificate! Please register first." 403, st)
      | none => success

/-- Result of `POST /auth/approve`. -/
inductive ApproveResult where
  | ok (redirect : String)
  | err (msg : String) (status : Nat)
deriving DecidableEq

/-- `approve_consent` (src/auth-server/app.py lines 477-524).  `allow`
models the truthiness of `data.get("allow")`; `newCode` models the fresh
`uuid4` authorization code. -/
def approve_consent (st : AuthState) (sessionToken : Option String)
    (client_id redirect_uri : Option String) (state : String) (allow : Bool)
    (now : Int) (newCode : String) : ApproveResult × AuthState :=
  match sessionToken.bind (alookup st.SESSIONS) with
  | none => (.err "Unauthorized" 401, st)
  | some session_data =>
    if allow = false then (.err "access_denied" 400, st)
    else
      match lfind (fun c => some c.client_id = client_id) st.oauth_clients with
      | none => (.err "invalid client" 400, st)
      | some client =>
        match redirect_uri with
        | some ruri =>
          if ruri ∈ client.redirect_uris then
            let cd : CodeData :=
              { username := session_data.username,
                client_id := client.client_id,
                expires_at := now + 300,
                fingerprint := session_data.fingerprint }
            (.ok (ruri ++ "?code=" ++ newCode ++ "&state=" ++ state),
             { st with AUTH_CODES := aset st.AUTH_CODES newCode cd })
          else (.err "invalid redirect_uri" 400, st)
        | none => (.err "invalid redirect_uri" 400, st)

/-- Result of `POST /auth/token`: either the JSON produced by
`_issue_tokens` or an error body with its HTTP status. -/
inductive TokenResult where
  | ok (access : AccessPayload) (refresh_token : String) (expires_in : Int)
       (username : String) (role : Option String) (scope : List String)
  | err (msg : String) (status : Nat)
deriving DecidableEq

/-- Whether a token response is the success shape. -/
def TokenResult.isOk : TokenResult → Bool
  | .ok .. => true
  | .err .. => false

/-- `_issue_tokens` (src/auth-server/app.py lines 562-600): builds the
access-token payload (fingerprint and role claims only when truthy), stores
a fresh refresh-token record, and returns the response JSON.  `newRt`
models the fresh `uuid4` refresh token. -/
def issue_tokens (st : AuthState) (username client_id : String)
    (fingerprint : Option String) (scopes : List String) (now : Int)
    (newRt : String) : TokenResult × AuthState :=
  let role := (lfind (fun u => u.username = username) st.users).map (·.role)
  let payload : AccessPayload :=
    { sub := username, client_id := client_id, iat := now,
      exp := now + ACCESS_EXPIRES_SECONDS, scope := scopes,
      fp := if strTruthy fingerprint then fingerprint else none,
      role := if strTruthy role then role else none }
  let rd : RefreshData :=
    { username := username, client_id := client_id,
      exp := now + REFRESH_EXPIRES_SECONDS, fingerprint := fingerprint,
      scope := scopes, role := role }
  (.ok payload newRt ACCESS_EXPIRES_SECONDS username role scopes,
   { st with REFRESH_TOKENS := aset st.REFRESH_TOKENS newRt rd })

/-- JSON body of a `POST /auth/token` request. -/
structure TokenRequest where
  grant_type : Option String
  client_id : Option String
  client_secret : Option String
  code : Option String
  refresh_token : Option String
deriving DecidableEq

/-- `token` (src/auth-server/app.py lines 527-559).  Client credentials are
checked first; for `authorization_code` the code is popped from
`AUTH_CODES` before its expiry is checked; for `refresh_token` the stored
record is read (`REFRESH_TOKENS.get`) and left in place. -/
def token (st : AuthState) (req : TokenRequest) (now : Int) (newRt : String) :
    TokenResult × AuthState :=
  match lfind (fun c => some c.client_id = req.client_id) st.oauth_clients with
  | none => (.err "invalid client credentials" 401, st)
  | some client =>
    if some client.client_secret ≠ req.client_secret then
      (.err "invalid client credentials" 401, st)
    else
      let client_scopes := client.scopes
      if req.grant_type = some "authorization_code" then
        match req.code with
        | none => (.err "invalid code" 400, st)
        | some cd =>
          let code_data := alookup st.AUTH_CODES cd
          let st1 := { st with AUTH_CODES := aerase st.AUTH_CODES cd }
          match code_data with
          | none => (.err "invalid code" 400, st1)
          | some c =>
            if c.expires_at < now then (.err "invalid code" 400, st1)
            else issue_tokens st1 c.username client.client_id c.fingerprint
                   client_scopes now newRt
      else if req.grant_type = some "refresh_token" then
        match req.refresh_token with
        | none => (.err "invalid refresh_token" 401, st)
        | some rt =>
          match alookup st.REFRESH_TOKENS rt with
          | none => (.err "invalid refresh_token" 401, st)
          | some stored =>
            if stored.exp < now then (.err "invalid refresh_token" 401, st)
            else
              let saved_scope :=
                if stored.scope ≠ [] then stored.scope else client_scopes
              issue_tokens st stored.username client.client_id
                stored.fingerprint saved_scope now newRt
      else (.err "unsupported grant_type" 400, st)

/-- Result of `POST /api/cert/revoke`. -/
inductive RevokeResult where
  | ok
  | err (msg : String) (status : Nat)
deriving DecidableEq

/-- `revoke_cert` (src/auth-server/app.py lines 410-430): marks the first
certificate row matching the given id and the caller's user id as revoked.
(A session whose user row is missing would raise in Python; it is modelled
as a 500.) -/
def revoke_cert (st : AuthState) (sessionToken : Option String)
    (cert_id : Option Nat) : RevokeResult × AuthState :=
  match sessionToken.bind (alookup st.SESSIONS) with
  | none => (.err "Unauthorized" 401, st)
  | some sd =>
    match lfind (fun u => u.username = sd.username) st.users with
    | none => (.err "Internal Server Error" 500, st)
    | some user =>
      match cert_id with
      | none => (.err "Not found" 404, st)
      | some cid =>
        match lfind (fun c => c.id = cid ∧ c.user_id = user.id)
            st.certificates with
        | some _ =>
          let certs :=
            update_first (fun c => c.id = cid ∧ c.user_id = user.id)
              (fun c => { c with status := "revoked" }) st.certificates
          (.ok, { st with certificates := certs })
        | none => (.err "Not found" 404, st)

/-- Ideal model of `jwt.decode` for server-minted tokens: decoding succeeds
with the original payload exactly when the token is unexpired (PyJWT raises
`ExpiredSignatureError` when `exp < now`). -/
def jwt_decode (tok : AccessPayload) (now : Int) : Option AccessPayload :=
  if tok.exp < now then none else some tok

/-- Result of `POST /auth/validate`. -/
inductive ValidateResult where
  | ok (username : String) (client_id : String) (scope : List String)
       (role : Option String)
  | err (msg : String) (status : Nat)
deriving DecidableEq

/-- `validate` (src/auth-server/app.py lines 603-632).  `bearer` is the
decoded bearer token of the Authorization header (`none` models a missing
or malformed header); the fingerprint checks run only when the payload
carries a truthy `fp` claim. -/
def validate (st : AuthState) (bearer : Option AccessPayload)
    (fpHeader : Option String) (now : Int) : ValidateResult :=
  let fingerprint := fingerprint_from_headers fpHeader
  match bearer with
  | none => .err "missing token" 401
  | some tokRaw =>
    match jwt_decode tokRaw now with
    | none => .err "invalid token" 401
    | some payload =>
      match payload.fp with
      | some f =>
        if f = "" then .ok payload.sub payload.client_id payload.scope payload.role
        else if fingerprint ≠ some f then
          .err "client certificate mismatch" 401
        else
          match lfind (fun c => c.fingerprint = f) st.certificates with
          | some cert =>
            if cert.status = "revoked" then .err "Certificate REVOKED" 401
            else .ok payload.sub payload.client_id payload.scope payload.role
          | none => .ok payload.sub payload.client_id payload.scope payload.role
      | none => .ok payload.sub payload.client_id payload.scope payload.role

end AuthServer

namespace CommonSecurity

/-- Ideal model of the stdlib primitive `hashlib.pbkdf2_hmac("sha256", ...)`
(third-party code, not part of this repository): the derived hex digest is
modelled by an encoding that is injective in the password, the salt and the
iteration count, which is the boundary behavior (a collision-free key
derivation function) the repository relies on. -/
def pbkdf2_hmac_sha256 (password salt : String) (iterations : Nat) : String :=
  "pbkdf2-sha256=" ++ toString iterations ++ "=" ++ salt ++ "=" ++ password

/-- `SecurityUtils.hash_password` (src/common/security.py lines 47-60):
uses the provided salt, or a fresh 16-byte random hex salt (`freshSalt`)
when none is given; 100000 iterations. -/
def hash_password (password : String) (salt : Option String)
    (freshSalt : String) : String × String :=
  let s := salt.getD freshSalt
  (pbkdf2_hmac_sha256 password s 100000, s)

/-- `hmac.compare_digest` on hex digest strings: constant-time string
equality (the timing aspect is not modelled). -/
def compare_digest (a b : String) : Bool := a == b

/-- `SecurityUtils.verify_password` (src/common/security.py lines 62-66):
recomputes the hash with the stored salt and compares digests. -/
def verify_password (password salt stored_hash : String) : Bool :=
  compare_digest (hash_password password (some salt) salt).1 stored_hash

/-- Per-client record held in `RateLimiter.clients`
(src/common/security.py lines 247-254). -/
structure ClientRecord where
  requests : List Int
  minute_count : Nat
  hour_count : Nat
  last_minute_reset : Int
  last_hour_reset : Int
deriving DecidableEq

/-- `RateLimiter` (src/common/security.py lines 232-241). -/
structure RateLimiter where
  requests_per_minute : Nat
  requests_per_hour : Nat
  burst_size : Nat
  clients : List (String × ClientRecord)
deriving DecidableEq

/-- A freshly constructed `RateLimiter(requests_per_minute, requests_per_hour,
burst_size)`. -/
def mkRateLimiter (rpm rph burst : Nat) : RateLimiter :=
  { requests_per_minute := rpm, requests_per_hour := rph,
    burst_size := burst, clients := [] }

/-- `RateLimiter.is_allowed` (src/common/security.py lines 243-280): creates
the client record on first sight, applies the 60s / 3600s rolling resets,
denies once either ceiling is reached, otherwise increments both counters,
records the timestamp and trims the request log to its last 1000 entries.
All mutations of the record persist in the returned limiter, as the Python
code mutates the stored dict in place. -/
def is_allowed (rl : RateLimiter) (client_id : String) (now : Int) :
    Bool × RateLimiter :=
  let r0 : ClientRecord :=
    match alookup rl.clients client_id with
    | some r => r
    | none =>
      { requests := [], minute_count := 0, hour_count := 0,
        last_minute_reset := now, last_hour_reset := now }
  let r1 :=
    if now - r0.last_minute_reset > 60 then
      { r0 with minute_count := 0, last_minute_reset := now }
    else r0
  let r2 :=
    if now - r1.last_hour_reset > 3600 then
      { r1 with hour_count := 0, last_hour_reset := now }
    else r1
  if r2.minute_count ≥ rl.requests_per_minute then
    (false, { rl with clients := aset rl.clients client_id r2 })
  else if r2.hour_count ≥ rl.requests_per_hour then
    (false, { rl with clients := aset rl.clients client_id r2 })
  else
    let r3 :=
      { r2 with requests := r2.requests ++ [now],
                minute_count := r2.minute_count + 1,
                hour_count := r2.hour_count + 1 }
    let r4 :=
      if r3.requests.length > 1000 then
        { r3 with requests := r3.requests.drop (r3.requests.length - 1000) }
      else r3
    (true, { rl with clients := aset rl.clients client_id r4 })

/-- Run a sequence of `is_allowed` calls for one client at the given
timestamps, returning the individual verdicts and the final limiter. -/
def run_calls : RateLimiter → String → List Int → List Bool × RateLimiter
  | rl, _, [] => ([], rl)
  | rl, cid, t :: ts =>
    let p := is_allowed rl cid t
    let q := run_calls p.2 cid ts
    (p.1 :: q.1, q.2)

end CommonSecurity

namespace CloudApi

/-- Entry of the in-memory `FILES` list (src/cloud-api/app.py). -/
structure CloudFile where
  id : String
  name : String
  size : String
  uploaded_at : String
  owner : String
  encrypted : Bool
  share_token : Option String
  share_password : Option String
  share_expires_at : Option String
  is_binary : Bool
  storage_path : Option String
deriving DecidableEq

/-- Value of the in-memory `SHARES` dict (src/cloud-api/app.py lines
471-478). -/
structure ShareRecord where
  token : String
  file_id : String
  owner : String
  password : Option String
  expires_at : Int
  created_at : Int
deriving DecidableEq

/-- In-memory state of the cloud service relevant to sharing. -/
structure CloudState where
  FILES : List CloudFile
  SHARES : List (String × ShareRecord)
deriving DecidableEq

/-- Result of `POST /files/share`. -/
inductive ShareFileResult where
  | ok (share_token : String) (created_at expires_at : Int)
       (expire_hours : Int) (need_password : Bool)
  | err (msg : String) (status : Nat)
deriving DecidableEq

/-- `share_file` (src/cloud-api/app.py lines 430-508), after the session
bridge has resolved `username`.  `expire_hours_in` models
`payload.get("expire_hours")` (`or 24` makes 0 and absence default to 24,
and a non-positive value is also replaced by 24); `password_in` models
`payload.get("password") or None` (an empty string becomes no password);
`newToken` models the fresh `uuid4().hex` share token. -/
def share_file (st : CloudState) (username : String) (file_id : Option String)
    (expire_hours_in : Option Int) (password_in : Option String) (now : Int)
    (newToken : String) : ShareFileResult × CloudState :=
  match file_id with
  | none => (.err "missing file_id" 400, st)
  | some fid =>
    match lfind (fun f => f.id = fid ∧ f.owner = username) st.FILES with
    | none => (.err "file not found or no permission" 404, st)
    | some _ =>
      let eh0 : Int :=
        match expire_hours_in with
        | none => 24
        | some h => if h = 0 then 24 else h
      let expire_hours := if eh0 ≤ 0 then 24 else eh0
      let password : Option String :=
        match password_in with
        | some p => if p = "" then none else some p
        | none => none
      let expire_at := now + expire_hours * 3600
      let newFiles :=
        update_first (fun f => f.id = fid ∧ f.owner = username)
          (fun f =>
            { f with share_token := some newToken,
                     share_password := password,
                     share_expires_at := some (toString expire_at),
                     encrypted := password.isSome }) st.FILES
      let sh : ShareRecord :=
        { token := newToken, file_id := fid, owner := username,
          password := password, expires_at := expire_at, created_at := now }
      (.ok newToken now expire_at expire_hours password.isSome,
       { FILES := newFiles, SHARES := aset st.SHARES newToken sh })

/-- Result of `GET /share/<token>`. -/
inductive AccessShareResult where
  | ok (file_id : String) (name : String) (owner : String)
       (shared_via : String) (share_expires_at : Int)
  | err (msg : String) (status : Nat)
deriving DecidableEq

/-- `access_share` (src/cloud-api/app.py lines 570-632): 404 for an unknown
token; 410 for an expired share, which is popped from `SHARES`; 403 when a
password is set and the presented one differs (`request.args.get("password")
or ""`); otherwise the public file metadata. -/
def access_share (st : CloudState) (tok : String)
    (password_param : Option String) (now : Int) :
    AccessShareResult × CloudState :=
  match alookup st.SHARES tok with
  | none => (.err "分享不存在或已失效" 404, st)
  | some share =>
    if share.expires_at < now then
      (.err "分享已过期" 410, { st with SHARES := aerase st.SHARES tok })
    else
      let pwd := password_param.getD ""
      let badPwd :=
        match share.password with
        | some sp => !(sp == "") && !(pwd == sp)
        | none => false
      if badPwd then (.err "密码错误" 403, st)
      else
        match lfind (fun f => f.id = share.file_id) st.FILES with
        | none => (.err "文件不存在" 404, st)
        | some f =>
          (.ok f.id f.name share.owner tok share.expires_at, st)

/-- The token column of the `GET /debug/shares` listing
(src/cloud-api/app.py lines 521-545), which iterates `SHARES.items()`. -/
def debug_shares (st : CloudState) : List String := akeys st.SHARES

end CloudApi

namespace AcademicCache

/-- `MemoryCache` (src/academic-api/cache.py lines 59-75): the three dicts
`_cache`, `_expiry_times` and `_access_times` plus the configured capacity
and default TTL.  Values are an arbitrary type `α`. -/
structure MemoryCache (α : Type) where
  cache : List (String × α)
  expiry_times : List (String × Int)
  access_times : List (String × Int)
  max_size : Nat
  default_ttl : Int

/-- `MemoryCache._is_expired` (src/academic-api/cache.py lines 77-82):
strictly past the recorded expiry instant; no entry means never expired. -/
def is_expired {α : Type} (c : MemoryCache α) (key : String) (now : Int) :
    Bool :=
  match alookup c.expiry_times key with
  | none => false
  | some e => now > e

/-- The access-time table sorted ascending by last-access time, the model of
`sorted(self._access_times.items(), key=lambda item: item[1])`. -/
def sorted_access {α : Type} (c : MemoryCache α) : List (String × Int) :=
  List.insertionSort (fun a b => a.2 ≤ b.2) c.access_times

instance : IsTotal (String × Int) (fun a b => a.2 ≤ b.2) :=
  ⟨fun a b => le_total a.2 b.2⟩

instance : IsTrans (String × Int) (fun a b => a.2 ≤ b.2) :=
  ⟨fun _ _ _ h1 h2 => le_trans h1 h2⟩

/-- `max(1, int(self._max_size * 0.1))`: for any realistic capacity the
float expression `int(n * 0.1)` equals integer division by 10. -/
def num_to_evict {α : Type} (c : MemoryCache α) : Nat :=
  max 1 (c.max_size / 10)

/-- Keys of the oldest 10 percent of entries by last-access time, the ones
deleted by `_evict_if_needed`. -/
def victim_keys {α : Type} (c : MemoryCache α) : List String :=
  ((sorted_access c).take (num_to_evict c)).map (·.1)

/-- `MemoryCache._evict_if_needed` (src/academic-api/cache.py lines 84-101):
a no-op unless strictly over capacity, otherwise deletes the victim keys
from all three dicts.  (The Python loop guards the deletions with
`if key in self._cache`; states reached by the public operations keep the
access-time keys equal to the cache keys, so the guard is always taken.) -/
def evict_if_needed {α : Type} (c : MemoryCache α) : MemoryCache α :=
  if c.cache.length ≤ c.max_size then c
  else
    { c with
      cache := (victim_keys c).foldl aerase c.cache,
      expiry_times := (victim_keys c).foldl aerase c.expiry_times,
      access_times := (victim_keys c).foldl aerase c.access_times }

/-- `MemoryCache.delete` (src/academic-api/cache.py lines 133-143). -/
def delete {α : Type} (c : MemoryCache α) (key : String) :
    Bool × MemoryCache α :=
  match alookup c.cache key with
  | none => (false, c)
  | some _ =>
    (true,
     { c with cache := aerase c.cache key,
              expiry_times := aerase c.expiry_times key,
              access_times := aerase c.access_times key })

/-- `MemoryCache.get` (src/academic-api/cache.py lines 103-115): `None` for
an absent key; an expired entry is deleted lazily and `None` returned;
otherwise the access time is refreshed and the value returned. -/
def get {α : Type} (c : MemoryCache α) (key : String) (now : Int) :
    Option α × MemoryCache α :=
  match alookup c.cache key with
  | none => (none, c)
  | some v =>
    if is_expired c key now then (none, (delete c key).2)
    else (some v, { c with access_times := aset c.access_times key now })

/-- `MemoryCache.set` (src/academic-api/cache.py lines 117-131): evicts
first when over capacity, stores the value and the access time, and records
an expiry instant only for a positive TTL (`None` means the default TTL). -/
def set {α : Type} (c : MemoryCache α) (key : String) (v : α)
    (ttl : Option Int) (now : Int) : Bool × MemoryCache α :=
  let c1 := evict_if_needed c
  let c2 := { c1 with cache := aset c1.cache key v,
                      access_times := aset c1.access_times key now }
  let t := ttl.getD c2.default_ttl
  let c3 :=
    if t > 0 then { c2 with expiry_times := aset c2.expiry_times key (now + t) }
    else c2
  (true, c3)

/-- A concrete three-entry string cache over capacity 2, with `"b"` the
least recently accessed entry. -/
def sample_cache : MemoryCache String :=
  { cache := [("a", "va"), ("b", "vb"), ("c", "vc")],
    expiry_times := [("a", 100), ("b", 100), ("c", 100)],
    access_times := [("a", 5), ("b", 3), ("c", 9)],
    max_size := 2,
    default_ttl := 3600 }

end AcademicCache

/-! Helper lemmas about the association-list dictionary model. -/

theorem alookup_aset_self {α : Type} (l : List (String × α)) (k : String)
    (v : α) : alookup (aset l k v) k = some v := by
  induction l with
  | nil => simp [aset, alookup]
  | cons p rest ih =>
    by_cases h : p.1 = k
    · simp [aset, alookup, h]
    · simp [aset, alookup, h, ih]

theorem akeys_cons {α : Type} (p : String × α) (l : List (String × α)) :
    akeys (p :: l) = p.1 :: akeys l := rfl

theorem alookup_aset_ne {α : Type} (l : List (String × α)) (k k' : String)
    (v : α) (h : k' ≠ k) : alookup (aset l k v) k' = alookup l k' := by
  induction l with
  | nil =>
    simp only [aset, alookup]
    rw [if_neg (fun hh => h hh.symm)]
  | cons p rest ih =>
    simp only [aset]
    by_cases hp : p.1 = k
    · rw [if_pos hp]
      simp only [alookup]
      rw [if_neg (fun hh => h hh.symm), if_neg (fun hh => h (hp ▸ hh).symm)]
    · rw [if_neg hp]
      simp only [alookup]
      by_cases hpk : p.1 = k'
      · rw [if_pos hpk, if_pos hpk]
      · rw [if_neg hpk, if_neg hpk]
        exact ih

theorem alookup_aerase_ne {α : Type} (l : List (String × α)) (k k' : String)
    (h : k' ≠ k) : alookup (aerase l k) k' = alookup l k' := by
  induction l with
  | nil => simp [aerase]
  | cons p rest ih =>
    simp only [aerase]
    by_cases hp : p.1 = k
    · rw [if_pos hp]
      simp only [alookup]
      rw [if_neg (fun hh => h (hp ▸ hh).symm)]
    · rw [if_neg hp]
      simp only [alookup]
      by_cases hpk : p.1 = k'
      · rw [if_pos hpk, if_pos hpk]
      · rw [if_neg hpk, if_neg hpk]
        exact ih

theorem mem_akeys_of_alookup {α : Type} {l : List (String × α)} {k : String}
    {v : α} (h : alookup l k = some v) : k ∈ akeys l := by
  induction l with
  | nil => simp [alookup] at h
  | cons p rest ih =>
    by_cases hp : p.1 = k
    · simp [akeys, hp.symm]
    · simp only [alookup, if_neg hp] at h
      simp [akeys] at ih ⊢
      right
      simpa [akeys] using ih h

theorem alookup_eq_none_of_not_mem {α : Type} {l : List (String × α)}
    {k : String} (h : k ∉ akeys l) : alookup l k = none := by
  induction l with
  | nil => simp [alookup]
  | cons p rest ih =>
    simp [akeys] at h
    push_neg at h
    have hp : p.1 ≠ k := fun hh => h.1 hh.symm
    simp only [alookup, if_neg hp]
    exact ih (by simpa [akeys] using h.2)

theorem akeys_aerase_sublist {α : Type} (l : List (String × α)) (k : String) :
    (akeys (aerase l k)).Sublist (akeys l) := by
  induction l with
  | nil => simp [aerase]
  | cons p rest ih =>
    by_cases hp : p.1 = k
    · simp only [aerase, if_pos hp, akeys]
      exact (List.sublist_cons_self _ _)
    · simp only [aerase, if_neg hp, akeys, List.map_cons]
      exact List.Sublist.cons₂ _ ih

theorem nodup_akeys_aerase {α : Type} {l : List (String × α)} (k : String)
    (h : (akeys l).Nodup) : (akeys (aerase l k)).Nodup :=
  (akeys_aerase_sublist l k).nodup h

theorem alookup_aerase_self {α : Type} {l : List (String × α)} {k : String}
    (h : (akeys l).Nodup) : alookup (aerase l k) k = none := by
  induction l with
  | nil => simp [aerase, alookup]
  | cons p rest ih =>
    rw [akeys_cons, List.nodup_cons] at h
    by_cases hp : p.1 = k
    · simp only [aerase, if_pos hp]
      exact alookup_eq_none_of_not_mem (hp ▸ h.1)
    · simp only [aerase, if_neg hp, alookup, if_neg hp]
      exact ih h.2

theorem akeys_aset_of_mem {α : Type} {l : List (String × α)} {k : String}
    (v : α) (h : k ∈ akeys l) : akeys (aset l k v) = akeys l := by
  induction l with
  | nil => simp [akeys] at h
  | cons p rest ih =>
    by_cases hp : p.1 = k
    · have hset : aset (p :: rest) k v = (k, v) :: rest := by
        simp only [aset, if_pos hp]
      rw [hset, akeys_cons, akeys_cons, hp]
    · rw [akeys_cons] at h
      rcases List.mem_cons.mp h with h1 | h1
      · exact absurd h1.symm hp
      · simp only [aset, if_neg hp, akeys_cons, ih h1]

theorem akeys_aset_of_not_mem {α : Type} {l : List (String × α)} {k : String}
    (v : α) (h : k ∉ akeys l) : akeys (aset l k v) = akeys l ++ [k] := by
  induction l with
  | nil => simp [aset, akeys]
  | cons p rest ih =>
    rw [akeys_cons] at h
    have hp : p.1 ≠ k := fun hh => h (List.mem_cons.mpr (Or.inl hh.symm))
    have hrest : k ∉ akeys rest := fun hh => h (List.mem_cons.mpr (Or.inr hh))
    simp only [aset, if_neg hp, akeys_cons, ih hrest, List.cons_append]

theorem nodup_akeys_aset {α : Type} {l : List (String × α)} (k : String)
    (v : α) (h : (akeys l).Nodup) : (akeys (aset l k v)).Nodup := by
  by_cases hm : k ∈ akeys l
  · rw [akeys_aset_of_mem v hm]
    exact h
  · rw [akeys_aset_of_not_mem v hm]
    refine List.Nodup.append h (List.nodup_singleton k) ?_
    intro a ha hb
    rcases List.mem_singleton.mp hb with rfl
    exact hm ha

theorem lfind_prop {α : Type} {p : α → Prop} [DecidablePred p] {l : List α}
    {c : α} (h : lfind p l = some c) : p c := by
  induction l with
  | nil => simp [lfind] at h
  | cons x rest ih =>
    by_cases hx : p x
    · simp only [lfind, if_pos hx, Option.some.injEq] at h
      exact h ▸ hx
    · simp only [lfind, if_neg hx] at h
      exact ih h

theorem lfind_update_first {α : Type} (p q : α → Prop) [DecidablePred p]
    [DecidablePred q] (g : α → α) (hg : ∀ a, q (g a) ↔ q a) (l : List α)
    (c : α) (hp : lfind p l = some c) (hq : lfind q l = some c) :
    lfind q (update_first p g l) = some (g c) := by
  induction l with
  | nil => simp [lfind] at hp
  | cons x rest ih =>
    by_cases hx : p x
    · simp only [lfind, if_pos hx, Option.some.injEq] at hp
      subst hp
      by_cases hqx : q x
      · simp only [update_first, if_pos hx, lfind, if_pos ((hg x).mpr hqx)]
      · exfalso
        simp only [lfind, if_neg hqx] at hq
        exact hqx (lfind_prop hq)
    · simp only [lfind, if_neg hx] at hp
      by_cases hqx : q x
      · exfalso
        simp only [lfind, if_pos hqx, Option.some.injEq] at hq
        exact hx (hq ▸ lfind_prop hp)
      · simp only [lfind, if_neg hqx] at hq
        simp only [update_first, if_neg hx, lfind, if_neg hqx]
        exact ih hp hq

theorem alookup_eq_some_of_mem_akeys {α : Type} {l : List (String × α)}
    {k : String} (h : k ∈ akeys l) : ∃ v, alookup l k = some v := by
  induction l with
  | nil => simp [akeys] at h
  | cons p rest ih =>
    by_cases hp : p.1 = k
    · exact ⟨p.2, by simp [alookup, hp]⟩
    · rw [akeys_cons] at h
      rcases List.mem_cons.mp h with h1 | h1
      · exact absurd h1.symm hp
      · rcases ih h1 with ⟨v, hv⟩
        exact ⟨v, by simp [alookup, hp, hv]⟩

theorem alookup_none_foldl_aerase {α : Type} (vs : List String)
    (l : List (String × α)) (k : String) (h : alookup l k = none) :
    alookup (vs.foldl aerase l) k = none := by
  induction vs generalizing l with
  | nil => simpa using h
  | cons v vs ih =>
    simp only [List.foldl_cons]
    apply ih
    apply alookup_eq_none_of_not_mem
    intro hm
    rcases alookup_eq_some_of_mem_akeys ((akeys_aerase_sublist l v).subset hm)
      with ⟨w, hw⟩
    rw [h] at hw
    exact Option.noConfusion hw

theorem alookup_foldl_aerase_of_mem {α : Type} (vs : List String)
    (l : List (String × α)) (k : String) (hnd : (akeys l).Nodup)
    (h : k ∈ vs) : alookup (vs.foldl aerase l) k = none := by
  induction vs generalizing l with
  | nil => simp at h
  | cons v vs ih =>
    simp only [List.foldl_cons]
    by_cases hv : k = v
    · subst hv
      exact alookup_none_foldl_aerase vs _ k (alookup_aerase_self hnd)
    · rcases List.mem_cons.mp h with h1 | h1
      · exact absurd h1 hv
      · exact ih _ (nodup_akeys_aerase v hnd) h1

theorem alookup_foldl_aerase_of_not_mem {α : Type} (vs : List String)
    (l : List (String × α)) (k : String) (h : k ∉ vs) :
    alookup (vs.foldl aerase l) k = alookup l k := by
  induction vs generalizing l with
  | nil => simp
  | cons v vs ih =>
    simp only [List.foldl_cons]
    have hv : k ≠ v := fun hh => h (List.mem_cons.mpr (Or.inl hh))
    rw [ih _ (fun hh => h (List.mem_cons.mpr (Or.inr hh))),
        alookup_aerase_ne l v k hv]

theorem nodup_akeys_foldl_aerase {α : Type} (vs : List String)
    (l : List (String × α)) (h : (akeys l).Nodup) :
    (akeys (vs.foldl aerase l)).Nodup := by
  induction vs generalizing l with
  | nil => simpa using h
  | cons v vs ih =>
    simp only [List.foldl_cons]
    exact ih _ (nodup_akeys_aerase v h)

theorem alookup_of_mem_of_nodup {α : Type} {l : List (String × α)}
    {k : String} {v : α} (hnd : (akeys l).Nodup) (h : (k, v) ∈ l) :
    alookup l k = some v := by
  induction l with
  | nil => simp at h
  | cons p rest ih =>
    rw [akeys_cons, List.nodup_cons] at hnd
    rcases List.mem_cons.mp h with h1 | h1
    · subst h1
      simp [alookup]
    · by_cases hp : p.1 = k
      · exfalso
        apply hnd.1
        rw [hp]
        exact List.mem_map.mpr ⟨(k, v), h1, rfl⟩
      · simp only [alookup, if_neg hp]
        exact ih hnd.2 h1

theorem mem_of_alookup_eq_some {α : Type} {l : List (String × α)}
    {k : String} {v : α} (h : alookup l k = some v) : (k, v) ∈ l := by
  induction l with
  | nil => simp [alookup] at h
  | cons p rest ih =>
    by_cases hp : p.1 = k
    · simp only [alookup, if_pos hp, Option.some.injEq] at h
      exact List.mem_cons.mpr (Or.inl (by rw [← hp, ← h]))
    · simp only [alookup, if_neg hp] at h
      exact List.mem_cons.mpr (Or.inr (ih h))

theorem string_append_left_cancel {a b c : String} (h : a ++ b = a ++ c) :
    b = c := by
  have hd := congrArg String.data h
  simp only [String.data_append] at hd
  exact String.ext (List.append_cancel_left hd)

theorem pbkdf2_injective_password {p1 p2 s : String} {n : Nat}
    (h : CommonSecurity.pbkdf2_hmac_sha256 p1 s n
       = CommonSecurity.pbkdf2_hmac_sha256 p2 s n) : p1 = p2 := by
  unfold CommonSecurity.pbkdf2_hmac_sha256 at h
  exact string_append_left_cancel h

/-- C6: for every password string and every salt, verifying the stored
PBKDF2-HMAC-SHA256 hash against the same password and salt succeeds, and
verifying it against any different password fails. -/
theorem c6_password_hash_round_trip (password salt : String) :
    CommonSecurity.verify_password password salt
      (CommonSecurity.hash_password password (some salt) salt).1 = true
    ∧ ∀ password' : String, password' ≠ password →
        CommonSecurity.verify_password password' salt
          (CommonSecurity.hash_password password (some salt) salt).1 = false := by
  constructor
  · simp [CommonSecurity.verify_password, CommonSecurity.hash_password,
      CommonSecurity.compare_digest]
  · intro p' hne
    simp only [CommonSecurity.verify_password, CommonSecurity.hash_password,
      CommonSecurity.compare_digest, Option.getD_some, beq_eq_false_iff_ne,
      ne_eq]
    intro hEq
    exact hne (pbkdf2_injective_password hEq)

/-- Witness for C6 at a concrete password, salt and differing password. -/
theorem c6_password_hash_round_trip_witness :
    CommonSecurity.verify_password "correct horse" "a1b2"
      (CommonSecurity.hash_password "correct horse" (some "a1b2") "a1b2").1 = true
    ∧ CommonSecurity.verify_password "wrong horse" "a1b2"
        (CommonSecurity.hash_password "correct horse" (some "a1b2") "a1b2").1 = false :=
  ⟨(c6_password_hash_round_trip "correct horse" "a1b2").1,
   (c6_password_hash_round_trip "correct horse" "a1b2").2 "wrong horse"
     (by decide)⟩

/-- C4: the code contains no check that an authorization code belongs to the
requesting client.  This theorem evaluates `token` at the failing input: a
pending code bound to client `academic-app` is exchanged by `cloud-app`
using `cloud-app` credentials, and the exchange succeeds with HTTP 200
instead of failing with InvalidInput (400), issuing tokens for
`cloud-app` with `cloud-app` scopes. -/
theorem c4_cross_client_code_exchange :
    (AuthServer.token
      { users := [⟨1, "alice", AuthServer.wz_hash "password123", "student"⟩],
        certificates := [],
        oauth_clients :=
          [⟨"academic-app", "academic-secret", "Academic", ["ua"],
            ["courses.read", "grades.read"]⟩,
           ⟨"cloud-app", "cloud-secret", "Cloud", ["uc"],
            ["files.read", "files.write"]⟩],
        SESSIONS := [],
        AUTH_CODES := [("c1", ⟨"alice", "academic-app", 300, none⟩)],
        REFRESH_TOKENS := [] }
      ⟨some "authorization_code", some "cloud-app", some "cloud-secret",
       some "c1", none⟩ 0 "r1").1
    = AuthServer.TokenResult.ok
        ⟨"alice", "cloud-app", 0, 300, ["files.read", "files.write"], none,
         some "student"⟩
        "r1" 300 "alice" (some "student") ["files.read", "files.write"] := by
  decide

/-- C5 (counterexample): login with a correct username and password but an
unknown certificate fingerprint (no Certificate row) is NOT accepted: the
code returns 403 "Unknown certificate! Please register first.", refuting
the claim that such logins are accepted in weak-verification mode. -/
theorem c5_unknown_fingerprint_counterexample :
    AuthServer.check_password_hash (AuthServer.wz_hash "password123")
      "password123" = true
    ∧ (AuthServer.login
        { users := [⟨1, "alice", AuthServer.wz_hash "password123", "student"⟩],
          certificates := [], oauth_clients := [], SESSIONS := [],
          AUTH_CODES := [], REFRESH_TOKENS := [] }
        "alice" "password123" (some "abcd") 0 "s1").1
      = AuthServer.LoginResult.err
          "Unknown certificate! Please register first." 403 := by
  decide

/-- C5 (amended): during `POST /auth/login`, when the request presents a
client-certificate fingerprint for which no Certificate row exists, the
login is rejected with 403 "Unknown certificate! Please register first."
even though the username/password check succeeds, and the state is left
unchanged. -/
theorem c5_unknown_fingerprint_login_rejected
    (st : AuthServer.AuthState) (username password : String)
    (fpHeader : Option String) (now : Int) (newSession : String)
    (user : AuthServer.User) (fp : String)
    (huser : lfind (fun u => u.username = username) st.users = some user)
    (hpw : AuthServer.check_password_hash user.password_hash password = true)
    (hfp : AuthServer.fingerprint_from_headers fpHeader = some fp)
    (hcert : lfind (fun c => c.fingerprint = fp) st.certificates = none) :
    AuthServer.login st username password fpHeader now newSession
      = (AuthServer.LoginResult.err
          "Unknown certificate! Please register first." 403, st) := by
  simp [AuthServer.login, huser, hpw, hfp, hcert]

/-- Witness for C5 at a concrete state and request. -/
theorem c5_unknown_fingerprint_login_rejected_witness :
    AuthServer.login
      { users := [⟨1, "bob", AuthServer.wz_hash "pw9", "student"⟩],
        certificates := [], oauth_clients := [], SESSIONS := [],
        AUTH_CODES := [], REFRESH_TOKENS := [] }
      "bob" "pw9" (some "feed") 7 "sess1"
    = (AuthServer.LoginResult.err
        "Unknown certificate! Please register first." 403,
       { users := [⟨1, "bob", AuthServer.wz_hash "pw9", "student"⟩],
         certificates := [], oauth_clients := [], SESSIONS := [],
         AUTH_CODES := [], REFRESH_TOKENS := [] }) :=
  c5_unknown_fingerprint_login_rejected _ "bob" "pw9" (some "feed") 7 "sess1"
    ⟨1, "bob", AuthServer.wz_hash "pw9", "student"⟩ "feed"
    (by decide) (by decide) (by decide) (by decide)

/-- C10: for every decodable, unexpired access token whose payload carries
no `fp` claim, the `validate` response is identical for any two requests
differing in the presented fingerprint header (including its absence) and
in the whole Certificate table, and equals the success response: neither
the fingerprint nor the revocation state is consulted. -/
theorem c10_no_fp_fingerprint_independence
    (tok : AuthServer.AccessPayload) (now : Int)
    (hfp : tok.fp = none) (hexp : ¬ (tok.exp < now)) :
    ∀ (st1 st2 : AuthServer.AuthState) (fp1 fp2 : Option String),
      AuthServer.validate st1 (some tok) fp1 now
        = AuthServer.validate st2 (some tok) fp2 now
      ∧ AuthServer.validate st1 (some tok) fp1 now
        = AuthServer.ValidateResult.ok tok.sub tok.client_id tok.scope
            tok.role := by
  intro st1 st2 fp1 fp2
  simp [AuthServer.validate, AuthServer.jwt_decode, hfp, hexp]

/-- Witness for C10 at a concrete token, two headers and two states. -/
theorem c10_no_fp_fingerprint_independence_witness :
    AuthServer.validate
        { users := [], certificates := [⟨1, 1, "sn", "ff", "revoked"⟩],
          oauth_clients := [], SESSIONS := [], AUTH_CODES := [],
          REFRESH_TOKENS := [] }
        (some ⟨"alice", "academic-app", 0, 300, ["courses.read"], none,
          some "student"⟩)
        (some "ff") 10
      = AuthServer.validate
          { users := [], certificates := [], oauth_clients := [],
            SESSIONS := [], AUTH_CODES := [], REFRESH_TOKENS := [] }
          (some ⟨"alice", "academic-app", 0, 300, ["courses.read"], none,
            some "student"⟩)
          none 10
    ∧ AuthServer.validate
        { users := [], certificates := [⟨1, 1, "sn", "ff", "revoked"⟩],
          oauth_clients := [], SESSIONS := [], AUTH_CODES := [],
          REFRESH_TOKENS := [] }
        (some ⟨"alice", "academic-app", 0, 300, ["courses.read"], none,
          some "student"⟩)
        (some "ff") 10
      = AuthServer.ValidateResult.ok "alice" "academic-app" ["courses.read"]
          (some "student") :=
  c10_no_fp_fingerprint_independence
    ⟨"alice", "academic-app", 0, 300, ["courses.read"], none, some "student"⟩
    10 (by decide) (by decide) _ _ (some "ff") none

/-- C2: for every access token whose payload carries a truthy
certificate-fingerprint claim `fp = f`, and which is otherwise valid
(decodable, unexpired), `POST /auth/validate` (1) fails with 401
"client certificate mismatch" whenever the presented fingerprint differs
from or lacks `f`; (2) fails with 401 "Certificate REVOKED" when the
matching presented fingerprint maps to a revoked Certificate row;
(3) succeeds when the presented fingerprint matches and the Certificate
row with that fingerprint, when one exists, is not revoked; and (4) after
the owner revokes that certificate through `POST /api/cert/revoke`, the
previously issued token fails validation with 401 even with the matching
fingerprint presented. -/
theorem c2_fp_bound_token_validation
    (tok : AuthServer.AccessPayload) (f : String) (now : Int)
    (hfp : tok.fp = some f) (hne : f ≠ "") (hexp : ¬ (tok.exp < now)) :
    (∀ (st : AuthServer.AuthState) (fpHeader : Option String),
       AuthServer.fingerprint_from_headers fpHeader ≠ some f →
       AuthServer.validate st (some tok) fpHeader now
         = AuthServer.ValidateResult.err "client certificate mismatch" 401)
    ∧ (∀ (st : AuthServer.AuthState) (fpHeader : Option String)
         (cert : AuthServer.Certificate),
       AuthServer.fingerprint_from_headers fpHeader = some f →
       lfind (fun c => c.fingerprint = f) st.certificates = some cert →
       cert.status = "revoked" →
       AuthServer.validate st (some tok) fpHeader now
         = AuthServer.ValidateResult.err "Certificate REVOKED" 401)
    ∧ (∀ (st : AuthServer.AuthState) (fpHeader : Option String),
       AuthServer.fingerprint_from_headers fpHeader = some f →
       (∀ cert : AuthServer.Certificate,
          lfind (fun c => c.fingerprint = f) st.certificates = some cert →
          cert.status ≠ "revoked") →
       AuthServer.validate st (some tok) fpHeader now
         = AuthServer.ValidateResult.ok tok.sub tok.client_id tok.scope
             tok.role)
    ∧ (∀ (st : AuthServer.AuthState) (sessTok : String)
         (sd : AuthServer.SessionData) (user : AuthServer.User) (cid : Nat)
         (cert : AuthServer.Certificate),
       alookup st.SESSIONS sessTok = some sd →
       lfind (fun u => u.username = sd.username) st.users = some user →
       lfind (fun c => c.id = cid ∧ c.user_id = user.id) st.certificates
         = some cert →
       lfind (fun c => c.fingerprint = f) st.certificates = some cert →
       ∀ fpHeader : Option String,
         AuthServer.fingerprint_from_headers fpHeader = some f →
         AuthServer.validate
             (AuthServer.revoke_cert st (some sessTok) (some cid)).2
             (some tok) fpHeader now
           = AuthServer.ValidateResult.err "Certificate REVOKED" 401) := by
  refine ⟨?_, ?_, ?_, ?_⟩
  · intro st fpHeader h
    simp [AuthServer.validate, AuthServer.jwt_decode, hexp, hfp, hne, h]
  · intro st fpHeader cert hpres hfind hrev
    simp [AuthServer.validate, AuthServer.jwt_decode, hexp, hfp, hne, hpres,
      hfind, hrev]
  · intro st fpHeader hpres hnone
    cases hc : lfind (fun c => c.fingerprint = f) st.certificates with
    | none =>
      simp [AuthServer.validate, AuthServer.jwt_decode, hexp, hfp, hne,
        hpres, hc]
    | some cert =>
      have hcr := hnone cert hc
      simp [AuthServer.validate, AuthServer.jwt_decode, hexp, hfp, hne,
        hpres, hc, hcr]
  · intro st sessTok sd user cid cert hsess huser hcert hfpfind fpHeader hpres
    have hkey :
        lfind (fun c => c.fingerprint = f)
          (update_first (fun c => c.id = cid ∧ c.user_id = user.id)
            (fun c => { c with status := "revoked" }) st.certificates)
        = some { cert with status := "revoked" } :=
      lfind_update_first (fun c => c.id = cid ∧ c.user_id = user.id)
        (fun c => c.fingerprint = f) (fun c => { c with status := "revoked" })
        (fun a => Iff.rfl) st.certificates cert hcert hfpfind
    simp [AuthServer.revoke_cert, hsess, huser, hcert, AuthServer.validate,
      AuthServer.jwt_decode, hexp, hfp, hne, hpres, hkey]

/-- Witness for C2: all four parts at a concrete token with fingerprint
claim "ff" and concrete states. -/
theorem c2_fp_bound_token_validation_witness :
    AuthServer.validate
        { users := [], certificates := [], oauth_clients := [],
          SESSIONS := [], AUTH_CODES := [], REFRESH_TOKENS := [] }
        (some ⟨"alice", "academic-app", 0, 300, [], some "ff",
          some "student"⟩) (some "gg") 0
      = AuthServer.ValidateResult.err "client certificate mismatch" 401
    ∧ AuthServer.validate
        { users := [], certificates := [⟨1, 1, "sn1", "ff", "revoked"⟩],
          oauth_clients := [], SESSIONS := [], AUTH_CODES := [],
          REFRESH_TOKENS := [] }
        (some ⟨"alice", "academic-app", 0, 300, [], some "ff",
          some "student"⟩) (some "ff") 0
      = AuthServer.ValidateResult.err "Certificate REVOKED" 401
    ∧ AuthServer.validate
        { users := [], certificates := [⟨1, 1, "sn1", "ff", "valid"⟩],
          oauth_clients := [], SESSIONS := [], AUTH_CODES := [],
          REFRESH_TOKENS := [] }
        (some ⟨"alice", "academic-app", 0, 300, [], some "ff",
          some "student"⟩) (some "ff") 0
      = AuthServer.ValidateResult.ok "alice" "academic-app" []
          (some "student")
    ∧ AuthServer.validate
        (AuthServer.revoke_cert
          { users := [⟨1, "alice", AuthServer.wz_hash "password123",
              "student"⟩],
            certificates := [⟨5, 1, "sn1", "ff", "valid"⟩],
            oauth_clients := [],
            SESSIONS := [("s1", ⟨"alice", "student", 0, some "ff"⟩)],
            AUTH_CODES := [], REFRESH_TOKENS := [] }
          (some "s1") (some 5)).2
        (some ⟨"alice", "academic-app", 0, 300, [], some "ff",
          some "student"⟩) (some "ff") 0
      = AuthServer.ValidateResult.err "Certificate REVOKED" 401 :=
  ⟨(c2_fp_bound_token_validation ⟨"alice", "academic-app", 0, 300, [],
      some "ff", some "student"⟩ "ff" 0 (by decide) (by decide)
      (by decide)).1 _ (some "gg") (by decide),
   (c2_fp_bound_token_validation ⟨"alice", "academic-app", 0, 300, [],
      some "ff", some "student"⟩ "ff" 0 (by decide) (by decide)
      (by decide)).2.1 _ (some "ff") ⟨1, 1, "sn1", "ff", "revoked"⟩
      (by decide) (by decide) (by decide),
   (c2_fp_bound_token_validation ⟨"alice", "academic-app", 0, 300, [],
      some "ff", some "student"⟩ "ff" 0 (by decide) (by decide)
      (by decide)).2.2.1 _ (some "ff") (by decide) (by decide),
   (c2_fp_bound_token_validation ⟨"alice", "academic-app", 0, 300, [],
      some "ff", some "student"⟩ "ff" 0 (by decide) (by decide)
      (by decide)).2.2.2 _ "s1" ⟨"alice", "student", 0, some "ff"⟩
      ⟨1, "alice", AuthServer.wz_hash "password123", "student"⟩ 5
      ⟨5, 1, "sn1", "ff", "valid"⟩ (by decide) (by decide) (by decide)
      (by decide) (some "ff") (by decide)⟩

/-- C3 (counterexample): refresh tokens are NOT rotated or invalidated.
With a stored refresh token "r1" (stored role "student") and the user's
database role now "admin": the first exchange succeeds and carries role
"admin" read from the users table (not the stored "student"), the record
for "r1" is still present unchanged afterwards, and a second exchange of
the same "r1" succeeds instead of failing with Unauthorized. -/
theorem c3_refresh_rotation_counterexample :
    (AuthServer.token
       { users := [⟨1, "alice", AuthServer.wz_hash "pw", "admin"⟩],
         certificates := [],
         oauth_clients := [⟨"cloud-app", "cloud-secret", "Cloud", ["uc"],
           ["files.read", "files.write"]⟩],
         SESSIONS := [], AUTH_CODES := [],
         REFRESH_TOKENS := [("r1", ⟨"alice", "cloud-app", 3600, none,
           ["files.read"], some "student"⟩)] }
       ⟨some "refresh_token", some "cloud-app", some "cloud-secret", none,
        some "r1"⟩ 0 "r2").1
      = AuthServer.TokenResult.ok
          ⟨"alice", "cloud-app", 0, 300, ["files.read"], none, some "admin"⟩
          "r2" 300 "alice" (some "admin") ["files.read"]
    ∧ alookup
        (AuthServer.token
          { users := [⟨1, "alice", AuthServer.wz_hash "pw", "admin"⟩],
            certificates := [],
            oauth_clients := [⟨"cloud-app", "cloud-secret", "Cloud", ["uc"],
              ["files.read", "files.write"]⟩],
            SESSIONS := [], AUTH_CODES := [],
            REFRESH_TOKENS := [("r1", ⟨"alice", "cloud-app", 3600, none,
              ["files.read"], some "student"⟩)] }
          ⟨some "refresh_token", some "cloud-app", some "cloud-secret", none,
           some "r1"⟩ 0 "r2").2.REFRESH_TOKENS "r1"
      = some ⟨"alice", "cloud-app", 3600, none, ["files.read"],
          some "student"⟩
    ∧ ((AuthServer.token
         (AuthServer.token
           { users := [⟨1, "alice", AuthServer.wz_hash "pw", "admin"⟩],
             certificates := [],
             oauth_clients := [⟨"cloud-app", "cloud-secret", "Cloud", ["uc"],
               ["files.read", "files.write"]⟩],
             SESSIONS := [], AUTH_CODES := [],
             REFRESH_TOKENS := [("r1", ⟨"alice", "cloud-app", 3600, none,
               ["files.read"], some "student"⟩)] }
           ⟨some "refresh_token", some "cloud-app", some "cloud-secret",
            none, some "r1"⟩ 0 "r2").2
         ⟨some "refresh_token", some "cloud-app", some "cloud-secret", none,
          some "r1"⟩ 1 "r3").1).isOk = true := by
  refine ⟨by decide, by decide, by decide⟩

theorem token_refresh_branch (st : AuthServer.AuthState)
    (cid rt newRt : String) (client : AuthServer.OAuthClient)
    (stored : AuthServer.RefreshData) (now : Int)
    (hclient : lfind (fun c => some c.client_id = some cid) st.oauth_clients
      = some client)
    (hstored : alookup st.REFRESH_TOKENS rt = some stored)
    (hexp : ¬ (stored.exp < now)) :
    AuthServer.token st
        ⟨some "refresh_token", some cid, some client.client_secret, none,
         some rt⟩ now newRt
      = AuthServer.issue_tokens st stored.username client.client_id
          stored.fingerprint
          (if stored.scope ≠ [] then stored.scope else client.scopes) now
          newRt := by
  have hclient' : lfind (fun c => c.client_id = cid) st.oauth_clients
      = some client := by simpa using hclient
  simp [AuthServer.token, hclient', hstored, hexp]

theorem issue_tokens_clients (st : AuthServer.AuthState)
    (u c : String) (fp : Option String) (scopes : List String) (now : Int)
    (newRt : String) :
    (AuthServer.issue_tokens st u c fp scopes now newRt).2.oauth_clients
      = st.oauth_clients := rfl

theorem alookup_issue_tokens_rt (st : AuthServer.AuthState)
    (u c : String) (fp : Option String) (scopes : List String) (now : Int)
    (newRt rt : String) (hne : rt ≠ newRt) :
    alookup (AuthServer.issue_tokens st u c fp scopes now
      newRt).2.REFRESH_TOKENS rt = alookup st.REFRESH_TOKENS rt := by
  simp only [AuthServer.issue_tokens]
  exact alookup_aset_ne _ _ _ _ hne

/-- C3 (amended): a successful `POST /auth/token` exchange with
`grant_type=refresh_token` issues a new access/refresh pair that preserves
the stored fingerprint and the stored scope (falling back to the client's
scopes when the stored scope list is empty), with the role re-read from
the users table rather than taken from the stored record; the presented
refresh token is NOT invalidated: its record is still stored unchanged,
and a second exchange of the same refresh token before its expiry also
succeeds. -/
theorem c3_refresh_exchange_not_rotated (st : AuthServer.AuthState)
    (cid rt newRt : String) (client : AuthServer.OAuthClient)
    (stored : AuthServer.RefreshData) (now : Int)
    (hclient : lfind (fun c => some c.client_id = some cid) st.oauth_clients
      = some client)
    (hstored : alookup st.REFRESH_TOKENS rt = some stored)
    (hexp : ¬ (stored.exp < now)) (hne : rt ≠ newRt) :
    (AuthServer.token st
        ⟨some "refresh_token", some cid, some client.client_secret, none,
         some rt⟩ now newRt).1
      = AuthServer.TokenResult.ok
          { sub := stored.username, client_id := client.client_id,
            iat := now, exp := now + AuthServer.ACCESS_EXPIRES_SECONDS,
            scope := if stored.scope ≠ [] then stored.scope
                     else client.scopes,
            fp := if strTruthy stored.fingerprint then stored.fingerprint
                  else none,
            role := if strTruthy ((lfind
                        (fun u => u.username = stored.username)
                        st.users).map (·.role))
                    then (lfind (fun u => u.username = stored.username)
                        st.users).map (·.role)
                    else none }
          newRt AuthServer.ACCESS_EXPIRES_SECONDS stored.username
          ((lfind (fun u => u.username = stored.username) st.users).map
            (·.role))
          (if stored.scope ≠ [] then stored.scope else client.scopes)
    ∧ alookup (AuthServer.token st
        ⟨some "refresh_token", some cid, some client.client_secret, none,
         some rt⟩ now newRt).2.REFRESH_TOKENS rt = some stored
    ∧ ∀ (now2 : Int) (newRt2 : String), ¬ (stored.exp < now2) →
        ((AuthServer.token (AuthServer.token st
            ⟨some "refresh_token", some cid, some client.client_secret,
             none, some rt⟩ now newRt).2
            ⟨some "refresh_token", some cid, some client.client_secret,
             none, some rt⟩ now2 newRt2).1).isOk = true := by
  have h1 := token_refresh_branch st cid rt newRt client stored now hclient
    hstored hexp
  refine ⟨?_, ?_, ?_⟩
  · rw [h1]
    simp [AuthServer.issue_tokens]
  · rw [h1]
    rw [alookup_issue_tokens_rt _ _ _ _ _ _ _ _ hne]
    exact hstored
  · intro now2 newRt2 hexp2
    rw [h1]
    have hclient2 : lfind (fun c => some c.client_id = some cid)
        (AuthServer.issue_tokens st stored.username client.client_id
          stored.fingerprint
          (if stored.scope ≠ [] then stored.scope else client.scopes) now
          newRt).2.oauth_clients = some client := hclient
    have hstored2 : alookup (AuthServer.issue_tokens st stored.username
        client.client_id stored.fingerprint
        (if stored.scope ≠ [] then stored.scope else client.scopes) now
        newRt).2.REFRESH_TOKENS rt = some stored := by
      rw [alookup_issue_tokens_rt _ _ _ _ _ _ _ _ hne]
      exact hstored
    rw [token_refresh_branch _ cid rt newRt2 client stored now2 hclient2
      hstored2 hexp2]
    simp [AuthServer.issue_tokens, AuthServer.TokenResult.isOk]

/-- Witness for C3 at a concrete state: one stored refresh token, exchanged
at time 0 and again at time 1. -/
theorem c3_refresh_exchange_not_rotated_witness :
    (AuthServer.token
        { users := [⟨1, "alice", AuthServer.wz_hash "pw", "admin"⟩],
          certificates := [],
          oauth_clients := [⟨"cloud-app", "cloud-secret", "Cloud", ["uc"],
            ["files.read", "files.write"]⟩],
          SESSIONS := [], AUTH_CODES := [],
          REFRESH_TOKENS := [("r1", ⟨"alice", "cloud-app", 3600, none,
            ["files.read"], some "student"⟩)] }
        ⟨some "refresh_token", some "cloud-app", some "cloud-secret", none,
         some "r1"⟩ 0 "r2").1
      = AuthServer.TokenResult.ok
          { sub := "alice", client_id := "cloud-app", iat := 0,
            exp := 0 + AuthServer.ACCESS_EXPIRES_SECONDS,
            scope := if (["files.read"] : List String) ≠ [] then
                ["files.read"] else ["files.read", "files.write"],
            fp := if strTruthy none then none else none,
            role := if strTruthy ((lfind
                (fun u => u.username = "alice")
                [(⟨1, "alice", AuthServer.wz_hash "pw", "admin"⟩ :
                  AuthServer.User)]).map (·.role))
              then (lfind (fun u => u.username = "alice")
                [(⟨1, "alice", AuthServer.wz_hash "pw", "admin"⟩ :
                  AuthServer.User)]).map (·.role)
              else none }
          "r2" AuthServer.ACCESS_EXPIRES_SECONDS "alice"
          ((lfind (fun u => u.username = "alice")
            [(⟨1, "alice", AuthServer.wz_hash "pw", "admin"⟩ :
              AuthServer.User)]).map (·.role))
          (if (["files.read"] : List String) ≠ [] then ["files.read"]
           else ["files.read", "files.write"])
    ∧ alookup (AuthServer.token
        { users := [⟨1, "alice", AuthServer.wz_hash "pw", "admin"⟩],
          certificates := [],
          oauth_clients := [⟨"cloud-app", "cloud-secret", "Cloud", ["uc"],
            ["files.read", "files.write"]⟩],
          SESSIONS := [], AUTH_CODES := [],
          REFRESH_TOKENS := [("r1", ⟨"alice", "cloud-app", 3600, none,
            ["files.read"], some "student"⟩)] }
        ⟨some "refresh_token", some "cloud-app", some "cloud-secret", none,
         some "r1"⟩ 0 "r2").2.REFRESH_TOKENS "r1"
      = some ⟨"alice", "cloud-app", 3600, none, ["files.read"],
          some "student"⟩
    ∧ ∀ (now2 : Int) (newRt2 : String), ¬ ((3600 : Int) < now2) →
        ((AuthServer.token (AuthServer.token
            { users := [⟨1, "alice", AuthServer.wz_hash "pw", "admin"⟩],
              certificates := [],
              oauth_clients := [⟨"cloud-app", "cloud-secret", "Cloud",
                ["uc"], ["files.read", "files.write"]⟩],
              SESSIONS := [], AUTH_CODES := [],
              REFRESH_TOKENS := [("r1", ⟨"alice", "cloud-app", 3600, none,
                ["files.read"], some "student"⟩)] }
            ⟨some "refresh_token", some "cloud-app", some "cloud-secret",
             none, some "r1"⟩ 0 "r2").2
            ⟨some "refresh_token", some "cloud-app", some "cloud-secret",
             none, some "r1"⟩ now2 newRt2).1).isOk = true :=
  c3_refresh_exchange_not_rotated _ "cloud-app" "r1" "r2"
    ⟨"cloud-app", "cloud-secret", "Cloud", ["uc"],
     ["files.read", "files.write"]⟩
    ⟨"alice", "cloud-app", 3600, none, ["files.read"], some "student"⟩ 0
    (by decide) (by decide) (by decide) (by decide)

theorem token_code_branch_found (st : AuthServer.AuthState)
    (cid : String) (client : AuthServer.OAuthClient) (code : String)
    (cd : AuthServer.CodeData) (now : Int) (newRt : String)
    (hclient : lfind (fun c => some c.client_id = some cid) st.oauth_clients
      = some client)
    (hcode : alookup st.AUTH_CODES code = some cd)
    (hexp : ¬ (cd.expires_at < now)) :
    AuthServer.token st
        ⟨some "authorization_code", some cid, some client.client_secret,
         some code, none⟩ now newRt
      = AuthServer.issue_tokens
          { st with AUTH_CODES := aerase st.AUTH_CODES code } cd.username
          client.client_id cd.fingerprint client.scopes now newRt := by
  have hclient' : lfind (fun c => c.client_id = cid) st.oauth_clients
      = some client := by simpa using hclient
  simp [AuthServer.token, hclient', hcode, hexp]

theorem token_code_branch_missing (st : AuthServer.AuthState)
    (cid : String) (client : AuthServer.OAuthClient) (code : String)
    (now : Int) (newRt : String)
    (hclient : lfind (fun c => some c.client_id = some cid) st.oauth_clients
      = some client)
    (hcode : alookup st.AUTH_CODES code = none) :
    AuthServer.token st
        ⟨some "authorization_code", some cid, some client.client_secret,
         some code, none⟩ now newRt
      = (AuthServer.TokenResult.err "invalid code" 400,
         { st with AUTH_CODES := aerase st.AUTH_CODES code }) := by
  have hclient' : lfind (fun c => c.client_id = cid) st.oauth_clients
      = some client := by simpa using hclient
  simp [AuthServer.token, hclient', hcode]

theorem token_code_branch_expired (st : AuthServer.AuthState)
    (cid : String) (client : AuthServer.OAuthClient) (code : String)
    (cd : AuthServer.CodeData) (now : Int) (newRt : String)
    (hclient : lfind (fun c => some c.client_id = some cid) st.oauth_clients
      = some client)
    (hcode : alookup st.AUTH_CODES code = some cd)
    (hexp : cd.expires_at < now) :
    AuthServer.token st
        ⟨some "authorization_code", some cid, some client.client_secret,
         some code, none⟩ now newRt
      = (AuthServer.TokenResult.err "invalid code" 400,
         { st with AUTH_CODES := aerase st.AUTH_CODES code }) := by
  have hclient' : lfind (fun c => c.client_id = cid) st.oauth_clients
      = some client := by simpa using hclient
  simp [AuthServer.token, hclient', hcode, hexp]

/-- C1: an authorization code minted by `POST /auth/approve` is single-use.
After consent mints code `newCode`: the code is pending with a 300s expiry;
a first `POST /auth/token` exchange with `grant_type=authorization_code`
while the code is unexpired, by any client presenting valid credentials,
succeeds and returns an access/refresh token pair; the exchange removes the
code from the pending set before any validity check (the code is absent
from `AUTH_CODES` after every exchange attempt, expired or not); and any
second exchange of the same code by any client with valid credentials
fails with "invalid code" (HTTP 400). -/
theorem c1_auth_code_single_use (st : AuthServer.AuthState)
    (sessTok : String) (sd : AuthServer.SessionData)
    (cid ruri stt : String) (client : AuthServer.OAuthClient)
    (now : Int) (newCode : String)
    (hsess : alookup st.SESSIONS sessTok = some sd)
    (hclient : lfind (fun c => some c.client_id = some cid) st.oauth_clients
      = some client)
    (hruri : ruri ∈ client.redirect_uris)
    (hnodup : (akeys st.AUTH_CODES).Nodup) :
    ∃ st1 : AuthServer.AuthState,
      (AuthServer.approve_consent st (some sessTok) (some cid) (some ruri)
        stt true now newCode).2 = st1
      ∧ alookup st1.AUTH_CODES newCode
          = some ⟨sd.username, client.client_id, now + 300, sd.fingerprint⟩
      ∧ st1.oauth_clients = st.oauth_clients
      ∧ (∀ (cid2 : String) (client2 : AuthServer.OAuthClient) (now1 : Int)
           (newRt : String),
          lfind (fun c => some c.client_id = some cid2) st1.oauth_clients
            = some client2 →
          ¬ (now + 300 < now1) →
          ∃ (pay : AuthServer.AccessPayload) (st2 : AuthServer.AuthState),
            AuthServer.token st1
                ⟨some "authorization_code", some cid2,
                 some client2.client_secret, some newCode, none⟩ now1 newRt
              = (AuthServer.TokenResult.ok pay newRt
                  AuthServer.ACCESS_EXPIRES_SECONDS sd.username
                  ((lfind (fun u => u.username = sd.username) st1.users).map
                    (·.role))
                  client2.scopes, st2)
            ∧ alookup st2.AUTH_CODES newCode = none
            ∧ st2.oauth_clients = st.oauth_clients
            ∧ ∀ (cid3 : String) (client3 : AuthServer.OAuthClient)
                (now2 : Int) (newRt2 : String),
                lfind (fun c => some c.client_id = some cid3)
                  st2.oauth_clients = some client3 →
                (AuthServer.token st2
                    ⟨some "authorization_code", some cid3,
                     some client3.client_secret, some newCode, none⟩ now2
                    newRt2).1
                  = AuthServer.TokenResult.err "invalid code" 400)
      ∧ (∀ (cid2 : String) (client2 : AuthServer.OAuthClient) (now1 : Int)
           (newRt : String),
          lfind (fun c => some c.client_id = some cid2) st1.oauth_clients
            = some client2 →
          alookup (AuthServer.token st1
              ⟨some "authorization_code", some cid2,
               some client2.client_secret, some newCode, none⟩ now1
              newRt).2.AUTH_CODES newCode = none) := by
  have hclient' : lfind (fun c => c.client_id = cid) st.oauth_clients
      = some client := by simpa using hclient
  have happ : (AuthServer.approve_consent st (some sessTok) (some cid)
      (some ruri) stt true now newCode).2
      = { st with AUTH_CODES := aset st.AUTH_CODES newCode ⟨sd.username, client.client_id, now + 300, sd.fingerprint⟩ } := by
    simp [AuthServer.approve_consent, hsess, hclient', hruri]
  refine ⟨_, happ, ?_, rfl, ?_, ?_⟩
  · exact alookup_aset_self _ _ _
  · intro cid2 client2 now1 newRt hc2 hnotexp
    have hcode1 : alookup (aset st.AUTH_CODES newCode
        ⟨sd.username, client.client_id, now + 300, sd.fingerprint⟩) newCode
        = some ⟨sd.username, client.client_id, now + 300, sd.fingerprint⟩ :=
      alookup_aset_self _ _ _
    rw [token_code_branch_found _ cid2 client2 newCode
      ⟨sd.username, client.client_id, now + 300, sd.fingerprint⟩ now1 newRt
      hc2 hcode1 hnotexp]
    refine ⟨_, _, rfl, ?_, rfl, ?_⟩
    · exact alookup_aerase_self (nodup_akeys_aset _ _ hnodup)
    · intro cid3 client3 now2 newRt2 hc3
      have hcode2 : alookup (AuthServer.issue_tokens
          { st with AUTH_CODES := aerase (aset st.AUTH_CODES newCode ⟨sd.username, client.client_id, now + 300, sd.fingerprint⟩) newCode }
          sd.username client2.client_id sd.fingerprint client2.scopes now1
          newRt).2.AUTH_CODES newCode = none :=
        alookup_aerase_self (nodup_akeys_aset _ _ hnodup)
      rw [token_code_branch_missing _ cid3 client3 newCode now2 newRt2 hc3
        hcode2]
  · intro cid2 client2 now1 newRt hc2
    have hcode1 : alookup (aset st.AUTH_CODES newCode
        ⟨sd.username, client.client_id, now + 300, sd.fingerprint⟩) newCode
        = some ⟨sd.username, client.client_id, now + 300, sd.fingerprint⟩ :=
      alookup_aset_self _ _ _
    by_cases hexp1 : (now + 300 : Int) < now1
    · rw [token_code_branch_expired _ cid2 client2 newCode
        ⟨sd.username, client.client_id, now + 300, sd.fingerprint⟩ now1
        newRt hc2 hcode1 hexp1]
      exact alookup_aerase_self (nodup_akeys_aset _ _ hnodup)
    · rw [token_code_branch_found _ cid2 client2 newCode
        ⟨sd.username, client.client_id, now + 300, sd.fingerprint⟩ now1
        newRt hc2 hcode1 hexp1]
      exact alookup_aerase_self (nodup_akeys_aset _ _ hnodup)

/-- Witness for C1 at a concrete state: session "s1" for alice, the
registered client "academic-app", code "c1" minted at time 0. -/
theorem c1_auth_code_single_use_witness :
    ∃ st1 : AuthServer.AuthState,
      (AuthServer.approve_consent
        { users := [⟨1, "alice", AuthServer.wz_hash "password123",
            "student"⟩],
          certificates := [],
          oauth_clients := [⟨"academic-app", "academic-secret", "Academic",
            ["ua"], ["courses.read", "grades.read"]⟩],
          SESSIONS := [("s1", ⟨"alice", "student", 0, none⟩)],
          AUTH_CODES := [], REFRESH_TOKENS := [] }
        (some "s1") (some "academic-app") (some "ua") "xyz" true 0 "c1").2
        = st1
      ∧ alookup st1.AUTH_CODES "c1"
          = some ⟨"alice", "academic-app", 0 + 300, none⟩
      ∧ st1.oauth_clients
          = [⟨"academic-app", "academic-secret", "Academic", ["ua"],
             ["courses.read", "grades.read"]⟩]
      ∧ (∀ (cid2 : String) (client2 : AuthServer.OAuthClient) (now1 : Int)
           (newRt : String),
          lfind (fun c => some c.client_id = some cid2) st1.oauth_clients
            = some client2 →
          ¬ ((0 : Int) + 300 < now1) →
          ∃ (pay : AuthServer.AccessPayload) (st2 : AuthServer.AuthState),
            AuthServer.token st1
                ⟨some "authorization_code", some cid2,
                 some client2.client_secret, some "c1", none⟩ now1 newRt
              = (AuthServer.TokenResult.ok pay newRt
                  AuthServer.ACCESS_EXPIRES_SECONDS "alice"
                  ((lfind (fun u => u.username = "alice") st1.users).map
                    (·.role))
                  client2.scopes, st2)
            ∧ alookup st2.AUTH_CODES "c1" = none
            ∧ st2.oauth_clients
                = [⟨"academic-app", "academic-secret", "Academic", ["ua"],
                   ["courses.read", "grades.read"]⟩]
            ∧ ∀ (cid3 : String) (client3 : AuthServer.OAuthClient)
                (now2 : Int) (newRt2 : String),
                lfind (fun c => some c.client_id = some cid3)
                  st2.oauth_clients = some client3 →
                (AuthServer.token st2
                    ⟨some "authorization_code", some cid3,
                     some client3.client_secret, some "c1", none⟩ now2
                    newRt2).1
                  = AuthServer.TokenResult.err "invalid code" 400)
      ∧ (∀ (cid2 : String) (client2 : AuthServer.OAuthClient) (now1 : Int)
           (newRt : String),
          lfind (fun c => some c.client_id = some cid2) st1.oauth_clients
            = some client2 →
          alookup (AuthServer.token st1
              ⟨some "authorization_code", some cid2,
               some client2.client_secret, some "c1", none⟩ now1
              newRt).2.AUTH_CODES "c1" = none) :=
  c1_auth_code_single_use
    { users := [⟨1, "alice", AuthServer.wz_hash "password123", "student"⟩],
      certificates := [],
      oauth_clients := [⟨"academic-app", "academic-secret", "Academic",
        ["ua"], ["courses.read", "grades.read"]⟩],
      SESSIONS := [("s1", ⟨"alice", "student", 0, none⟩)],
      AUTH_CODES := [], REFRESH_TOKENS := [] }
    "s1" ⟨"alice", "student", 0, none⟩ "academic-app" "ua" "xyz"
    ⟨"academic-app", "academic-secret", "Academic", ["ua"],
     ["courses.read", "grades.read"]⟩ 0 "c1"
    (by decide) (by decide) (by decide) (by decide)

theorem is_allowed_true_step (rl : CommonSecurity.RateLimiter) (cid : String)
    (r : CommonSecurity.ClientRecord) (now : Int)
    (hr : alookup rl.clients cid = some r)
    (hh3600 : ¬ (now - r.last_hour_reset > 3600))
    (hmc : (if now - r.last_minute_reset > 60 then 0 else r.minute_count)
      < rl.requests_per_minute)
    (hhc : r.hour_count < rl.requests_per_hour) :
    ∃ r' : CommonSecurity.ClientRecord,
      CommonSecurity.is_allowed rl cid now
        = (true, { rl with clients := aset rl.clients cid r' })
      ∧ r'.minute_count
          = (if now - r.last_minute_reset > 60 then 0 else r.minute_count)
            + 1
      ∧ r'.hour_count = r.hour_count + 1
      ∧ r'.last_minute_reset
          = (if now - r.last_minute_reset > 60 then now
             else r.last_minute_reset)
      ∧ r'.last_hour_reset = r.last_hour_reset := by
  by_cases h60 : now - r.last_minute_reset > 60
  · rw [if_pos h60] at hmc
    have hmc' : ¬ ((0 : Nat) ≥ rl.requests_per_minute) := by omega
    have hhc' : ¬ (r.hour_count ≥ rl.requests_per_hour) := by omega
    refine ⟨(if (r.requests ++ [now]).length > 1000 then ⟨(r.requests ++ [now]).drop ((r.requests ++ [now]).length - 1000), 0 + 1, r.hour_count + 1, now, r.last_hour_reset⟩ else ⟨r.requests ++ [now], 0 + 1, r.hour_count + 1, now, r.last_hour_reset⟩ : CommonSecurity.ClientRecord), ?_, ?_, ?_, ?_, ?_⟩
    · simp only [CommonSecurity.is_allowed, hr, if_pos h60, if_neg hh3600,
        if_neg hmc', if_neg hhc']
    all_goals
      simp [apply_ite CommonSecurity.ClientRecord.minute_count,
        apply_ite CommonSecurity.ClientRecord.hour_count,
        apply_ite CommonSecurity.ClientRecord.last_minute_reset,
        apply_ite CommonSecurity.ClientRecord.last_hour_reset, h60]
  · rw [if_neg h60] at hmc
    have hmc' : ¬ (r.minute_count ≥ rl.requests_per_minute) := by omega
    have hhc' : ¬ (r.hour_count ≥ rl.requests_per_hour) := by omega
    refine ⟨(if (r.requests ++ [now]).length > 1000 then ⟨(r.requests ++ [now]).drop ((r.requests ++ [now]).length - 1000), r.minute_count + 1, r.hour_count + 1, r.last_minute_reset, r.last_hour_reset⟩ else ⟨r.requests ++ [now], r.minute_count + 1, r.hour_count + 1, r.last_minute_reset, r.last_hour_reset⟩ : CommonSecurity.ClientRecord), ?_, ?_, ?_, ?_, ?_⟩
    · simp only [CommonSecurity.is_allowed, hr, if_neg h60, if_neg hh3600,
        if_neg hmc', if_neg hhc']
    all_goals
      simp [apply_ite CommonSecurity.ClientRecord.minute_count,
        apply_ite CommonSecurity.ClientRecord.hour_count,
        apply_ite CommonSecurity.ClientRecord.last_minute_reset,
        apply_ite CommonSecurity.ClientRecord.last_hour_reset, h60]

theorem is_allowed_false_minute (rl : CommonSecurity.RateLimiter)
    (cid : String) (r : CommonSecurity.ClientRecord) (now : Int)
    (hr : alookup rl.clients cid = some r)
    (h60 : ¬ (now - r.last_minute_reset > 60))
    (hh3600 : ¬ (now - r.last_hour_reset > 3600))
    (hmc : r.minute_count ≥ rl.requests_per_minute) :
    CommonSecurity.is_allowed rl cid now
      = (false, { rl with clients := aset rl.clients cid r }) := by
  simp only [CommonSecurity.is_allowed, hr, if_neg h60, if_neg hh3600,
    if_pos hmc]

theorem is_allowed_false_hour (rl : CommonSecurity.RateLimiter)
    (cid : String) (r : CommonSecurity.ClientRecord) (now : Int)
    (hr : alookup rl.clients cid = some r)
    (hh3600 : ¬ (now - r.last_hour_reset > 3600))
    (hmc : (if now - r.last_minute_reset > 60 then 0 else r.minute_count)
      < rl.requests_per_minute)
    (hhc : r.hour_count ≥ rl.requests_per_hour) :
    ∃ r' : CommonSecurity.ClientRecord,
      CommonSecurity.is_allowed rl cid now
        = (false, { rl with clients := aset rl.clients cid r' })
      ∧ r'.minute_count
          = (if now - r.last_minute_reset > 60 then 0 else r.minute_count)
      ∧ r'.hour_count = r.hour_count
      ∧ r'.last_minute_reset
          = (if now - r.last_minute_reset > 60 then now
             else r.last_minute_reset)
      ∧ r'.last_hour_reset = r.last_hour_reset := by
  by_cases h60 : now - r.last_minute_reset > 60
  · rw [if_pos h60] at hmc
    have hmc' : ¬ ((0 : Nat) ≥ rl.requests_per_minute) := by omega
    refine ⟨(⟨r.requests, 0, r.hour_count, now, r.last_hour_reset⟩ : CommonSecurity.ClientRecord), ?_, ?_, ?_, ?_, ?_⟩
    · simp only [CommonSecurity.is_allowed, hr, if_pos h60, if_neg hh3600,
        if_neg hmc', if_pos hhc]
    all_goals simp [h60]
  · rw [if_neg h60] at hmc
    have hmc' : ¬ (r.minute_count ≥ rl.requests_per_minute) := by omega
    refine ⟨r, ?_, ?_, ?_, ?_, ?_⟩
    · simp only [CommonSecurity.is_allowed, hr, if_neg h60, if_neg hh3600,
        if_neg hmc', if_pos hhc]
    all_goals simp [h60]

theorem is_allowed_fresh (rl : CommonSecurity.RateLimiter) (cid : String)
    (now : Int) (hnone : alookup rl.clients cid = none)
    (hm : 0 < rl.requests_per_minute) (hh : 0 < rl.requests_per_hour) :
    CommonSecurity.is_allowed rl cid now
      = (true, { rl with clients := aset rl.clients cid ⟨[now], 1, 1, now, now⟩ }) := by
  have h60 : ¬ ((now - now : Int) > 60) := by omega
  have h3600 : ¬ ((now - now : Int) > 3600) := by omega
  have hmc' : ¬ ((0 : Nat) ≥ rl.requests_per_minute) := by omega
  have hhc' : ¬ ((0 : Nat) ≥ rl.requests_per_hour) := by omega
  simp only [CommonSecurity.is_allowed, hnone, if_neg h60, if_neg h3600,
    if_neg hmc', if_neg hhc']
  norm_num

theorem run_calls_minute (cid : String) (t0 : Int) (ts : List Int) :
    ∀ (rl : CommonSecurity.RateLimiter) (r : CommonSecurity.ClientRecord),
    alookup rl.clients cid = some r →
    r.last_minute_reset = t0 → r.last_hour_reset = t0 →
    (∀ t ∈ ts, t - t0 ≤ 60) →
    r.minute_count + ts.length ≤ rl.requests_per_minute →
    r.hour_count + ts.length ≤ rl.requests_per_hour →
    (CommonSecurity.run_calls rl cid ts).1 = List.replicate ts.length true
    ∧ (CommonSecurity.run_calls rl cid ts).2.requests_per_minute
        = rl.requests_per_minute
    ∧ (CommonSecurity.run_calls rl cid ts).2.requests_per_hour
        = rl.requests_per_hour
    ∧ ∃ r' : CommonSecurity.ClientRecord,
        alookup (CommonSecurity.run_calls rl cid ts).2.clients cid = some r'
        ∧ r'.minute_count = r.minute_count + ts.length
        ∧ r'.hour_count = r.hour_count + ts.length
        ∧ r'.last_minute_reset = t0 ∧ r'.last_hour_reset = t0 := by
  induction ts with
  | nil =>
    intro rl r hr hlm hlh hts hm hh
    exact ⟨rfl, rfl, rfl, r, hr, by simp, by simp, hlm, hlh⟩
  | cons t ts ih =>
    intro rl r hr hlm hlh hts hm hh
    simp only [List.length_cons] at hm hh
    have ht : t - t0 ≤ 60 := hts t (List.mem_cons_self t ts)
    have h60 : ¬ (t - r.last_minute_reset > 60) := by rw [hlm]; omega
    have h3600 : ¬ (t - r.last_hour_reset > 3600) := by rw [hlh]; omega
    have hmc : (if t - r.last_minute_reset > 60 then 0 else r.minute_count)
        < rl.requests_per_minute := by
      rw [if_neg h60]; omega
    obtain ⟨r1, heq, hm1, hh1, hlm1, hlh1⟩ :=
      is_allowed_true_step rl cid r t hr h3600 hmc (by omega)
    rw [if_neg h60] at hm1 hlm1
    have hr1 : alookup (aset rl.clients cid r1) cid = some r1 :=
      alookup_aset_self _ _ _
    obtain ⟨hres, hrpm, hrph, r2, hr2, hm2, hh2, hlm2, hlh2⟩ :=
      ih { rl with clients := aset rl.clients cid r1 } r1 hr1
        (by rw [hlm1, hlm]) (by rw [hlh1, hlh])
        (fun t' ht' => hts t' (List.mem_cons_of_mem t ht'))
        (by show r1.minute_count + ts.length ≤ rl.requests_per_minute; omega)
        (by show r1.hour_count + ts.length ≤ rl.requests_per_hour; omega)
    refine ⟨?_, ?_, ?_, r2, ?_,
      by simp only [List.length_cons]; omega,
      by simp only [List.length_cons]; omega, hlm2, hlh2⟩
    · simp only [CommonSecurity.run_calls, heq, List.length_cons,
        List.replicate_succ]
      exact congrArg (true :: ·) hres
    · simpa only [CommonSecurity.run_calls, heq] using hrpm
    · simpa only [CommonSecurity.run_calls, heq] using hrph
    · simpa only [CommonSecurity.run_calls, heq] using hr2

theorem run_calls_hour (cid : String) (t0 : Int) (ts : List Int) :
    ∀ (rl : CommonSecurity.RateLimiter) (r : CommonSecurity.ClientRecord),
    alookup rl.clients cid = some r →
    r.last_hour_reset = t0 →
    (∀ t ∈ ts, t - t0 ≤ 3600) →
    r.minute_count ≤ r.hour_count →
    r.hour_count + ts.length ≤ rl.requests_per_hour →
    rl.requests_per_hour < rl.requests_per_minute →
    (CommonSecurity.run_calls rl cid ts).1 = List.replicate ts.length true
    ∧ (CommonSecurity.run_calls rl cid ts).2.requests_per_minute
        = rl.requests_per_minute
    ∧ (CommonSecurity.run_calls rl cid ts).2.requests_per_hour
        = rl.requests_per_hour
    ∧ ∃ r' : CommonSecurity.ClientRecord,
        alookup (CommonSecurity.run_calls rl cid ts).2.clients cid = some r'
        ∧ r'.hour_count = r.hour_count + ts.length
        ∧ r'.minute_count ≤ r'.hour_count
        ∧ r'.last_hour_reset = t0 := by
  induction ts with
  | nil =>
    intro rl r hr hlh hts hinv hh hPM
    exact ⟨rfl, rfl, rfl, r, hr, by simp, hinv, hlh⟩
  | cons t ts ih =>
    intro rl r hr hlh hts hinv hh hPM
    simp only [List.length_cons] at hh
    have ht : t - t0 ≤ 3600 := hts t (List.mem_cons_self t ts)
    have h3600 : ¬ (t - r.last_hour_reset > 3600) := by rw [hlh]; omega
    have hmc : (if t - r.last_minute_reset > 60 then 0 else r.minute_count)
        < rl.requests_per_minute := by
      by_cases h60 : t - r.last_minute_reset > 60
      · rw [if_pos h60]; omega
      · rw [if_neg h60]; omega
    obtain ⟨r1, heq, hm1, hh1, hlm1, hlh1⟩ :=
      is_allowed_true_step rl cid r t hr h3600 hmc (by omega)
    have hr1 : alookup (aset rl.clients cid r1) cid = some r1 :=
      alookup_aset_self _ _ _
    have hinv1 : r1.minute_count ≤ r1.hour_count := by
      rw [hm1, hh1]
      by_cases h60 : t - r.last_minute_reset > 60
      · rw [if_pos h60]; omega
      · rw [if_neg h60]; omega
    obtain ⟨hres, hrpm, hrph, r2, hr2, hh2, hinv2, hlh2⟩ :=
      ih { rl with clients := aset rl.clients cid r1 } r1 hr1
        (by rw [hlh1, hlh])
        (fun t' ht' => hts t' (List.mem_cons_of_mem t ht'))
        hinv1
        (by show r1.hour_count + ts.length ≤ rl.requests_per_hour; omega)
        hPM
    refine ⟨?_, ?_, ?_, r2, ?_,
      by simp only [List.length_cons]; omega, hinv2, hlh2⟩
    · simp only [CommonSecurity.run_calls, heq, List.length_cons,
        List.replicate_succ]
      exact congrArg (true :: ·) hres
    · simpa only [CommonSecurity.run_calls, heq] using hrpm
    · simpa only [CommonSecurity.run_calls, heq] using hrph
    · simpa only [CommonSecurity.run_calls, heq] using hr2

theorem is_allowed_true_hour_reset (rl : CommonSecurity.RateLimiter)
    (cid : String) (r : CommonSecurity.ClientRecord) (now : Int)
    (hr : alookup rl.clients cid = some r)
    (h3600 : now - r.last_hour_reset > 3600)
    (hmc : (if now - r.last_minute_reset > 60 then 0 else r.minute_count)
      < rl.requests_per_minute)
    (hh : 0 < rl.requests_per_hour) :
    (CommonSecurity.is_allowed rl cid now).1 = true := by
  have hhc' : ¬ ((0 : Nat) ≥ rl.requests_per_hour) := by omega
  by_cases h60 : now - r.last_minute_reset > 60
  · rw [if_pos h60] at hmc
    have hmc' : ¬ ((0 : Nat) ≥ rl.requests_per_minute) := by omega
    simp only [CommonSecurity.is_allowed, hr, if_pos h60, if_pos h3600,
      if_neg hmc', if_neg hhc']
  · rw [if_neg h60] at hmc
    have hmc' : ¬ (r.minute_count ≥ rl.requests_per_minute) := by omega
    simp only [CommonSecurity.is_allowed, hr, if_neg h60, if_pos h3600,
      if_neg hmc', if_neg hhc']

/-- C7: rate-limiter accounting.  Minute part: a limiter configured for N
requests per minute (with N below the hour ceiling) allows N consecutive
calls from one client within a 60-second window, denies the (N+1)-th call
inside the window, and allows the next call once strictly more than 60
seconds have elapsed since the window started.  Hour part, analogously over
3600 seconds: with the hour ceiling M below the minute ceiling, M calls
within 3600 seconds are allowed, the (M+1)-th is denied, and a call
strictly more than 3600 seconds after the window started is allowed
again. -/
theorem c7_rate_limiter_accounting :
    (∀ (N H burst : Nat) (cid : String) (t0 : Int) (ts : List Int)
       (tN tr : Int),
      1 ≤ N → N < H → ts.length = N - 1 → (∀ t ∈ ts, t - t0 ≤ 60) →
      tN - t0 ≤ 60 → 60 < tr - t0 → tr - t0 ≤ 3600 →
      (CommonSecurity.is_allowed (CommonSecurity.mkRateLimiter N H burst)
        cid t0).1 = true
      ∧ (CommonSecurity.run_calls (CommonSecurity.is_allowed
          (CommonSecurity.mkRateLimiter N H burst) cid t0).2 cid ts).1
          = List.replicate (N - 1) true
      ∧ (CommonSecurity.is_allowed (CommonSecurity.run_calls
          (CommonSecurity.is_allowed (CommonSecurity.mkRateLimiter N H
            burst) cid t0).2 cid ts).2 cid tN).1 = false
      ∧ (CommonSecurity.is_allowed (CommonSecurity.is_allowed
          (CommonSecurity.run_calls (CommonSecurity.is_allowed
            (CommonSecurity.mkRateLimiter N H burst) cid t0).2 cid ts).2
          cid tN).2 cid tr).1 = true)
    ∧ (∀ (P M burst : Nat) (cid : String) (t0 : Int) (ts : List Int)
       (tM tr : Int),
      1 ≤ M → M < P → ts.length = M - 1 → (∀ t ∈ ts, t - t0 ≤ 3600) →
      tM - t0 ≤ 3600 → 3600 < tr - t0 →
      (CommonSecurity.is_allowed (CommonSecurity.mkRateLimiter P M burst)
        cid t0).1 = true
      ∧ (CommonSecurity.run_calls (CommonSecurity.is_allowed
          (CommonSecurity.mkRateLimiter P M burst) cid t0).2 cid ts).1
          = List.replicate (M - 1) true
      ∧ (CommonSecurity.is_allowed (CommonSecurity.run_calls
          (CommonSecurity.is_allowed (CommonSecurity.mkRateLimiter P M
            burst) cid t0).2 cid ts).2 cid tM).1 = false
      ∧ (CommonSecurity.is_allowed (CommonSecurity.is_allowed
          (CommonSecurity.run_calls (CommonSecurity.is_allowed
            (CommonSecurity.mkRateLimiter P M burst) cid t0).2 cid ts).2
          cid tM).2 cid tr).1 = true) := by
  constructor
  · intro N H burst cid t0 ts tN tr hN hNH hlen hts htN htr60 htr3600
    have hfresh := is_allowed_fresh (CommonSecurity.mkRateLimiter N H burst)
      cid t0 rfl hN (by show 0 < H; omega)
    have hr1 : alookup (CommonSecurity.is_allowed
        (CommonSecurity.mkRateLimiter N H burst) cid t0).2.clients cid
        = some ⟨[t0], 1, 1, t0, t0⟩ := by
      rw [hfresh]
      exact alookup_aset_self _ _ _
    obtain ⟨hres, hrpm, hrph, r2, hr2, hm2, hh2, hlm2, hlh2⟩ :=
      run_calls_minute cid t0 ts _ ⟨[t0], 1, 1, t0, t0⟩ hr1 rfl rfl hts
        (by rw [hfresh]; show 1 + ts.length ≤ N; omega)
        (by rw [hfresh]; show 1 + ts.length ≤ H; omega)
    have hm2' : r2.minute_count = 1 + ts.length := hm2
    have hh2' : r2.hour_count = 1 + ts.length := hh2
    have hL2rpm : (CommonSecurity.run_calls (CommonSecurity.is_allowed
        (CommonSecurity.mkRateLimiter N H burst) cid t0).2 cid
        ts).2.requests_per_minute = N := by
      rw [hrpm, hfresh]; rfl
    have hL2rph : (CommonSecurity.run_calls (CommonSecurity.is_allowed
        (CommonSecurity.mkRateLimiter N H burst) cid t0).2 cid
        ts).2.requests_per_hour = H := by
      rw [hrph, hfresh]; rfl
    have hden := is_allowed_false_minute _ cid r2 tN hr2
      (by rw [hlm2]; omega) (by rw [hlh2]; omega)
      (by rw [hL2rpm]; omega)
    have hr3 : alookup (CommonSecurity.is_allowed (CommonSecurity.run_calls
        (CommonSecurity.is_allowed (CommonSecurity.mkRateLimiter N H burst)
          cid t0).2 cid ts).2 cid tN).2.clients cid = some r2 := by
      rw [hden]
      exact alookup_aset_self _ _ _
    have hL3rpm : (CommonSecurity.is_allowed (CommonSecurity.run_calls
        (CommonSecurity.is_allowed (CommonSecurity.mkRateLimiter N H burst)
          cid t0).2 cid ts).2 cid tN).2.requests_per_minute = N := by
      rw [hden]; exact hL2rpm
    have hL3rph : (CommonSecurity.is_allowed (CommonSecurity.run_calls
        (CommonSecurity.is_allowed (CommonSecurity.mkRateLimiter N H burst)
          cid t0).2 cid ts).2 cid tN).2.requests_per_hour = H := by
      rw [hden]; exact hL2rph
    obtain ⟨r4, heq4, _, _, _, _⟩ := is_allowed_true_step _ cid r2 tr hr3
      (by rw [hlh2]; omega)
      (by rw [hlm2, if_pos (by omega : tr - t0 > 60), hL3rpm]; omega)
      (by rw [hL3rph]; omega)
    refine ⟨by simp [hfresh], by rw [hres, hlen], by simp [hden], ?_⟩
    rw [heq4]
  · intro P M burst cid t0 ts tM tr hM hMP hlen hts htM htr
    have hfresh := is_allowed_fresh (CommonSecurity.mkRateLimiter P M burst)
      cid t0 rfl (by show 0 < P; omega) hM
    have hr1 : alookup (CommonSecurity.is_allowed
        (CommonSecurity.mkRateLimiter P M burst) cid t0).2.clients cid
        = some ⟨[t0], 1, 1, t0, t0⟩ := by
      rw [hfresh]
      exact alookup_aset_self _ _ _
    obtain ⟨hres, hrpm, hrph, r2, hr2, hh2, hinv2, hlh2⟩ :=
      run_calls_hour cid t0 ts _ ⟨[t0], 1, 1, t0, t0⟩ hr1 rfl hts
        (le_refl 1)
        (by rw [hfresh]; show 1 + ts.length ≤ M; omega)
        (by rw [hfresh]; show M < P; omega)
    have hh2' : r2.hour_count = 1 + ts.length := hh2
    have hL2rpm : (CommonSecurity.run_calls (CommonSecurity.is_allowed
        (CommonSecurity.mkRateLimiter P M burst) cid t0).2 cid
        ts).2.requests_per_minute = P := by
      rw [hrpm, hfresh]; rfl
    have hL2rph : (CommonSecurity.run_calls (CommonSecurity.is_allowed
        (CommonSecurity.mkRateLimiter P M burst) cid t0).2 cid
        ts).2.requests_per_hour = M := by
      rw [hrph, hfresh]; rfl
    obtain ⟨r3, hden, hm3, hh3, hlm3, hlh3⟩ := is_allowed_false_hour _ cid
      r2 tM hr2 (by rw [hlh2]; omega)
      (by rw [hL2rpm]
          by_cases h60 : tM - r2.last_minute_reset > 60
          · rw [if_pos h60]; omega
          · rw [if_neg h60]; omega)
      (by rw [hL2rph]; omega)
    have hr3 : alookup (CommonSecurity.is_allowed (CommonSecurity.run_calls
        (CommonSecurity.is_allowed (CommonSecurity.mkRateLimiter P M burst)
          cid t0).2 cid ts).2 cid tM).2.clients cid = some r3 := by
      rw [hden]
      exact alookup_aset_self _ _ _
    have hL3rpm : (CommonSecurity.is_allowed (CommonSecurity.run_calls
        (CommonSecurity.is_allowed (CommonSecurity.mkRateLimiter P M burst)
          cid t0).2 cid ts).2 cid tM).2.requests_per_minute = P := by
      rw [hden]; exact hL2rpm
    have hL3rph : (CommonSecurity.is_allowed (CommonSecurity.run_calls
        (CommonSecurity.is_allowed (CommonSecurity.mkRateLimiter P M burst)
          cid t0).2 cid ts).2 cid tM).2.requests_per_hour = M := by
      rw [hden]; exact hL2rph
    have hfinal := is_allowed_true_hour_reset _ cid r3 tr hr3
      (by rw [hlh3, hlh2]; omega)
      (by rw [hL3rpm]
          by_cases h60 : tr - r3.last_minute_reset > 60
          · rw [if_pos h60]; omega
          · rw [if_neg h60, hm3]
            by_cases h60' : tM - r2.last_minute_reset > 60
            · rw [if_pos h60']; omega
            · rw [if_neg h60']; omega)
      (by rw [hL3rph]; omega)
    refine ⟨by simp [hfresh], by rw [hres, hlen], by simp [hden], hfinal⟩

/-- Witness for C7: minute part with N = 2 per minute at times 0, 1, then
denial at 60 and an allowed call at 61; hour part with M = 2 per hour at
times 0, 100, then denial at 3600 and an allowed call at 3601. -/
theorem c7_rate_limiter_accounting_witness :
    ((CommonSecurity.is_allowed (CommonSecurity.mkRateLimiter 2 10 10) "w"
        0).1 = true
      ∧ (CommonSecurity.run_calls (CommonSecurity.is_allowed
          (CommonSecurity.mkRateLimiter 2 10 10) "w" 0).2 "w" [1]).1
          = List.replicate (2 - 1) true
      ∧ (CommonSecurity.is_allowed (CommonSecurity.run_calls
          (CommonSecurity.is_allowed (CommonSecurity.mkRateLimiter 2 10 10)
            "w" 0).2 "w" [1]).2 "w" 60).1 = false
      ∧ (CommonSecurity.is_allowed (CommonSecurity.is_allowed
          (CommonSecurity.run_calls (CommonSecurity.is_allowed
            (CommonSecurity.mkRateLimiter 2 10 10) "w" 0).2 "w" [1]).2
          "w" 60).2 "w" 61).1 = true)
    ∧ ((CommonSecurity.is_allowed (CommonSecurity.mkRateLimiter 10 2 10)
        "w" 0).1 = true
      ∧ (CommonSecurity.run_calls (CommonSecurity.is_allowed
          (CommonSecurity.mkRateLimiter 10 2 10) "w" 0).2 "w" [100]).1
          = List.replicate (2 - 1) true
      ∧ (CommonSecurity.is_allowed (CommonSecurity.run_calls
          (CommonSecurity.is_allowed (CommonSecurity.mkRateLimiter 10 2 10)
            "w" 0).2 "w" [100]).2 "w" 3600).1 = false
      ∧ (CommonSecurity.is_allowed (CommonSecurity.is_allowed
          (CommonSecurity.run_calls (CommonSecurity.is_allowed
            (CommonSecurity.mkRateLimiter 10 2 10) "w" 0).2 "w" [100]).2
          "w" 3600).2 "w" 3601).1 = true) :=
  ⟨c7_rate_limiter_accounting.1 2 10 10 "w" 0 [1] 60 61 (by decide)
    (by decide) (by decide) (by decide) (by decide) (by decide) (by decide),
   c7_rate_limiter_accounting.2 10 2 10 "w" 0 [100] 3600 3601 (by decide)
    (by decide) (by decide) (by decide) (by decide) (by decide)⟩

theorem not_mem_akeys_of_alookup_none {α : Type} {l : List (String × α)}
    {k : String} (h : alookup l k = none) : k ∉ akeys l := by
  intro hm
  rcases alookup_eq_some_of_mem_akeys hm with ⟨v, hv⟩
  rw [h] at hv
  exact Option.noConfusion hv

/-- C8: share-link lifecycle.  (1) A share created for a caller-owned file
with `expire_hours = 1` and no password is anonymously readable through
`GET /share/<token>` immediately, and once strictly past the expiry
instant the access fails with Gone (410) and deletes the record, so the
token is absent from the `/debug/shares` listing; (2) when a password is
set, access with a wrong password fails with Forbidden (403); (3) an
unknown token fails with NotFound (404). -/
theorem c8_share_link_lifecycle :
    (∀ (st : CloudApi.CloudState) (username fid : String)
       (file : CloudApi.CloudFile) (now : Int) (tok : String),
      lfind (fun f => f.id = fid ∧ f.owner = username) st.FILES = some file →
      lfind (fun f => f.id = fid) st.FILES = some file →
      (akeys st.SHARES).Nodup →
      ∃ st1 : CloudApi.CloudState,
        CloudApi.share_file st username (some fid) (some 1) none now tok
          = (CloudApi.ShareFileResult.ok tok now (now + 3600) 1 false,
             st1)
        ∧ (CloudApi.access_share st1 tok none now).1
            = CloudApi.AccessShareResult.ok fid file.name username tok
                (now + 3600)
        ∧ (∀ (t : Int) (pp : Option String), now + 3600 < t →
            CloudApi.access_share st1 tok pp t
              = (CloudApi.AccessShareResult.err "分享已过期" 410,
                 { st1 with SHARES := aerase st1.SHARES tok })
            ∧ tok ∉ CloudApi.debug_shares
                (CloudApi.access_share st1 tok pp t).2))
    ∧ (∀ (st : CloudApi.CloudState) (username fid : String)
       (file : CloudApi.CloudFile) (now : Int) (tok : String) (p q : String),
      p ≠ "" → q ≠ p →
      lfind (fun f => f.id = fid ∧ f.owner = username) st.FILES = some file →
      ∃ st1 : CloudApi.CloudState,
        CloudApi.share_file st username (some fid) (some 1) (some p) now tok
          = (CloudApi.ShareFileResult.ok tok now (now + 3600) 1 true,
             st1)
        ∧ (CloudApi.access_share st1 tok (some q) now).1
            = CloudApi.AccessShareResult.err "密码错误" 403)
    ∧ (∀ (st : CloudApi.CloudState) (tok : String) (pp : Option String)
       (now : Int),
      alookup st.SHARES tok = none →
      CloudApi.access_share st tok pp now
        = (CloudApi.AccessShareResult.err "分享不存在或已失效" 404, st)) := by
  refine ⟨?_, ?_, ?_⟩
  · intro st username fid file now tok hP hQ hnod
    have hfid : file.id = fid :=
      lfind_prop (p := fun f : CloudApi.CloudFile => f.id = fid) hQ
    have hnotexp : ¬ (now + 3600 < now) := by omega
    have hupdate := lfind_update_first
      (fun f => f.id = fid ∧ f.owner = username) (fun f => f.id = fid)
      (fun f => { f with share_token := some tok, share_password := none, share_expires_at := some (toString (now + 3600)), encrypted := false })
      (fun a => Iff.rfl) st.FILES file hP hQ
    refine ⟨{ FILES := update_first (fun f => f.id = fid ∧ f.owner = username) (fun f => { f with share_token := some tok, share_password := none, share_expires_at := some (toString (now + 3600)), encrypted := false }) st.FILES, SHARES := aset st.SHARES tok ⟨tok, fid, username, none, now + 3600, now⟩ }, ?_, ?_, ?_⟩
    · simp [CloudApi.share_file, hP]
    · simp [CloudApi.access_share, alookup_aset_self, hnotexp, hupdate,
        hfid]
    · intro t pp ht
      have heq : CloudApi.access_share
          ({ FILES := update_first (fun f => f.id = fid ∧ f.owner = username) (fun f => { f with share_token := some tok, share_password := none, share_expires_at := some (toString (now + 3600)), encrypted := false }) st.FILES, SHARES := aset st.SHARES tok ⟨tok, fid, username, none, now + 3600, now⟩ } : CloudApi.CloudState)
          tok pp t
          = (CloudApi.AccessShareResult.err "分享已过期" 410,
             { FILES := update_first (fun f => f.id = fid ∧ f.owner = username) (fun f => { f with share_token := some tok, share_password := none, share_expires_at := some (toString (now + 3600)), encrypted := false }) st.FILES, SHARES := aerase (aset st.SHARES tok ⟨tok, fid, username, none, now + 3600, now⟩) tok }) := by
        simp [CloudApi.access_share, alookup_aset_self, ht]
      refine ⟨heq, ?_⟩
      rw [heq]
      simp only [CloudApi.debug_shares]
      exact not_mem_akeys_of_alookup_none
        (alookup_aerase_self (nodup_akeys_aset _ _ hnod))
  · intro st username fid file now tok p q hp hq hP
    have hnotexp : ¬ (now + 3600 < now) := by omega
    refine ⟨{ FILES := update_first (fun f => f.id = fid ∧ f.owner = username) (fun f => { f with share_token := some tok, share_password := some p, share_expires_at := some (toString (now + 3600)), encrypted := true }) st.FILES, SHARES := aset st.SHARES tok ⟨tok, fid, username, some p, now + 3600, now⟩ }, ?_, ?_⟩
    · simp [CloudApi.share_file, hP, hp]
    · simp [CloudApi.access_share, alookup_aset_self, hnotexp, hp, hq]
  · intro st tok pp now hnone
    simp [CloudApi.access_share, hnone]

/-- Witness for C8 at a concrete state: one file "f1" owned by alice,
shared at time 100 with a one-hour expiry. -/
theorem c8_share_link_lifecycle_witness :
    (∃ st1 : CloudApi.CloudState,
      CloudApi.share_file { FILES := [⟨"f1", "doc.txt", "2KB", "2024-06-01", "alice", false, none, none, none, false, none⟩], SHARES := [] } "alice" (some "f1") (some 1) none 100 "tok1"
        = (CloudApi.ShareFileResult.ok "tok1" 100 (100 + 3600) 1 false, st1)
      ∧ (CloudApi.access_share st1 "tok1" none 100).1
          = CloudApi.AccessShareResult.ok "f1" "doc.txt" "alice" "tok1"
              (100 + 3600)
      ∧ (∀ (t : Int) (pp : Option String), (100 : Int) + 3600 < t →
          CloudApi.access_share st1 "tok1" pp t
            = (CloudApi.AccessShareResult.err "分享已过期" 410,
               { st1 with SHARES := aerase st1.SHARES "tok1" })
          ∧ "tok1" ∉ CloudApi.debug_shares
              (CloudApi.access_share st1 "tok1" pp t).2))
    ∧ (∃ st1 : CloudApi.CloudState,
      CloudApi.share_file { FILES := [⟨"f1", "doc.txt", "2KB", "2024-06-01", "alice", false, none, none, none, false, none⟩], SHARES := [] } "alice" (some "f1") (some 1) (some "pw") 100 "tok1"
        = (CloudApi.ShareFileResult.ok "tok1" 100 (100 + 3600) 1 true, st1)
      ∧ (CloudApi.access_share st1 "tok1" (some "wrong") 100).1
          = CloudApi.AccessShareResult.err "密码错误" 403)
    ∧ CloudApi.access_share { FILES := [⟨"f1", "doc.txt", "2KB", "2024-06-01", "alice", false, none, none, none, false, none⟩], SHARES := [] } "zz" none 100
        = (CloudApi.AccessShareResult.err "分享不存在或已失效" 404,
           { FILES := [⟨"f1", "doc.txt", "2KB", "2024-06-01", "alice", false, none, none, none, false, none⟩], SHARES := [] }) :=
  ⟨c8_share_link_lifecycle.1 _ "alice" "f1"
    ⟨"f1", "doc.txt", "2KB", "2024-06-01", "alice", false, none, none, none,
     false, none⟩ 100 "tok1" (by decide) (by decide) (by decide),
   c8_share_link_lifecycle.2.1 _ "alice" "f1"
    ⟨"f1", "doc.txt", "2KB", "2024-06-01", "alice", false, none, none, none,
     false, none⟩ 100 "tok1" "pw" "wrong" (by decide) (by decide)
    (by decide),
   c8_share_link_lifecycle.2.2 _ "zz" none 100 (by decide)⟩

/-- C9: in-process cache TTL and eviction.  TTL part: a value set with a
positive TTL is returned by `get` at any time up to `now + ttl` and `get`
returns `none` and deletes the entry at any time strictly past it.
Eviction part: when `set` finds the cache strictly over its configured
capacity, exactly `max 1 (max_size / 10)` keys are evicted (the Python
`max(1, int(max_size * 0.1))`), they are the entries with the oldest
last-access times (every evicted entry's access time is at most every
surviving entry's access time, so the most recently accessed entries are
never evicted), and every other entry survives the insert. -/
theorem c9_cache_ttl_and_eviction :
    (∀ (α : Type) (c : AcademicCache.MemoryCache α) (key : String) (v : α)
       (ttl now : Int),
      0 < ttl → (akeys c.cache).Nodup →
      (∀ t : Int, t ≤ now + ttl →
        (AcademicCache.get (AcademicCache.set c key v (some ttl) now).2 key
          t).1 = some v)
      ∧ (∀ t : Int, now + ttl < t →
        (AcademicCache.get (AcademicCache.set c key v (some ttl) now).2 key
          t).1 = none
        ∧ alookup (AcademicCache.get
            (AcademicCache.set c key v (some ttl) now).2 key t).2.cache key
            = none))
    ∧ (∀ (α : Type) (c : AcademicCache.MemoryCache α) (key : String) (v : α)
       (ttl : Option Int) (now : Int),
      c.max_size < c.cache.length →
      (akeys c.cache).Nodup → (akeys c.access_times).Nodup →
      (max 1 (c.max_size / 10) ≤ c.access_times.length →
        (AcademicCache.victim_keys c).length = max 1 (c.max_size / 10))
      ∧ (∀ k1 ∈ AcademicCache.victim_keys c, ∀ (k2 : String) (t1 t2 : Int),
          alookup c.access_times k1 = some t1 →
          alookup c.access_times k2 = some t2 →
          k2 ∉ AcademicCache.victim_keys c → t1 ≤ t2)
      ∧ (∀ k ∈ AcademicCache.victim_keys c, k ≠ key →
          alookup (AcademicCache.set c key v ttl now).2.cache k = none)
      ∧ (∀ (k : String) (w : α), k ∉ AcademicCache.victim_keys c →
          k ≠ key → alookup c.cache k = some w →
          alookup (AcademicCache.set c key v ttl now).2.cache k
            = some w)) := by
  constructor
  · intro α c key v ttl now httl hnodup
    have hset : (AcademicCache.set c key v (some ttl) now).2
        = { AcademicCache.evict_if_needed c with cache := aset (AcademicCache.evict_if_needed c).cache key v, access_times := aset (AcademicCache.evict_if_needed c).access_times key now, expiry_times := aset (AcademicCache.evict_if_needed c).expiry_times key (now + ttl) } := by
      simp [AcademicCache.set, httl]
    have hnodup1 : (akeys (AcademicCache.evict_if_needed c).cache).Nodup := by
      by_cases hle : c.cache.length ≤ c.max_size
      · simpa [AcademicCache.evict_if_needed, hle] using hnodup
      · simp only [AcademicCache.evict_if_needed, if_neg hle]
        exact nodup_akeys_foldl_aerase _ _ hnodup
    refine ⟨?_, ?_⟩
    · intro t ht
      have hne : ¬ (t > now + ttl) := by omega
      rw [hset]
      simp [AcademicCache.get, alookup_aset_self, AcademicCache.is_expired,
        hne]
    · intro t ht
      rw [hset]
      constructor
      · simp [AcademicCache.get, alookup_aset_self,
          AcademicCache.is_expired, ht]
      · simp [AcademicCache.get, alookup_aset_self,
          AcademicCache.is_expired, ht, AcademicCache.delete]
        exact alookup_aerase_self (nodup_akeys_aset _ _ hnodup1)
  · intro α c key v ttl now hover hnodC hnodA
    have hnotle : ¬ (c.cache.length ≤ c.max_size) := by omega
    have hevcache : (AcademicCache.evict_if_needed c).cache
        = (AcademicCache.victim_keys c).foldl aerase c.cache := by
      simp [AcademicCache.evict_if_needed, hnotle]
    have hcache : (AcademicCache.set c key v ttl now).2.cache
        = aset ((AcademicCache.victim_keys c).foldl aerase c.cache) key
            v := by
      rw [← hevcache]
      simp only [AcademicCache.set]
      split <;> rfl
    refine ⟨?_, ?_, ?_, ?_⟩
    · intro hn
      have hlen : (AcademicCache.sorted_access c).length
          = c.access_times.length := (List.perm_insertionSort _ _).length_eq
      simp only [AcademicCache.victim_keys, List.length_map,
        List.length_take, hlen, AcademicCache.num_to_evict]
      omega
    · intro k1 hk1 k2 t1 t2 ht1 ht2 hk2
      have hsorted : List.Sorted (fun a b : String × Int => a.2 ≤ b.2)
          (AcademicCache.sorted_access c) := List.sorted_insertionSort _ _
      simp only [AcademicCache.victim_keys] at hk1 hk2
      obtain ⟨p1, hp1take, hp1fst⟩ := List.mem_map.mp hk1
      have hp1acc : p1 ∈ c.access_times :=
        (List.perm_insertionSort _ _).subset (List.mem_of_mem_take hp1take)
      have h1 := alookup_of_mem_of_nodup (k := p1.1) (v := p1.2) hnodA
        hp1acc
      rw [hp1fst, ht1] at h1
      have hp1val : t1 = p1.2 := by
        injection h1
      have hk2pair : (k2, t2) ∈ c.access_times := mem_of_alookup_eq_some ht2
      have hk2sorted : (k2, t2) ∈ AcademicCache.sorted_access c :=
        (List.perm_insertionSort _ _).symm.subset hk2pair
      have hsplit : (k2, t2) ∈ (AcademicCache.sorted_access c).take
            (AcademicCache.num_to_evict c)
          ++ (AcademicCache.sorted_access c).drop
            (AcademicCache.num_to_evict c) := by
        rw [List.take_append_drop]
        exact hk2sorted
      rcases List.mem_append.mp hsplit with hin | hin
      · exact absurd (List.mem_map.mpr ⟨(k2, t2), hin, rfl⟩) hk2
      · have hpw := List.pairwise_append.mp (by
          rw [show AcademicCache.sorted_access c
              = (AcademicCache.sorted_access c).take
                  (AcademicCache.num_to_evict c)
                ++ (AcademicCache.sorted_access c).drop
                  (AcademicCache.num_to_evict c)
            from (List.take_append_drop _ _).symm] at hsorted
          exact hsorted)
        have := hpw.2.2 p1 hp1take (k2, t2) hin
        rw [hp1val]
        exact this
    · intro k hk hkne
      rw [hcache, alookup_aset_ne _ _ _ _ hkne]
      exact alookup_foldl_aerase_of_mem _ _ _ hnodC hk
    · intro k w hknot hkne hw
      rw [hcache, alookup_aset_ne _ _ _ _ hkne,
        alookup_foldl_aerase_of_not_mem _ _ _ hknot]
      exact hw

/-- Witness for C9 at `sample_cache`: setting `"d"` with TTL 10 at time 50
makes `get` return the value at time 60 and `none` (with the entry deleted)
at time 61; an insert while over capacity evicts exactly the oldest-access
key `"b"` and keeps `"a"`. -/
theorem c9_cache_ttl_and_eviction_witness :
    (AcademicCache.get
      (AcademicCache.set AcademicCache.sample_cache "d" "vd" (some 10)
        50).2 "d" 60).1 = some "vd"
    ∧ (AcademicCache.get
      (AcademicCache.set AcademicCache.sample_cache "d" "vd" (some 10)
        50).2 "d" 61).1 = none
    ∧ AcademicCache.victim_keys AcademicCache.sample_cache = ["b"]
    ∧ alookup
        (AcademicCache.set AcademicCache.sample_cache "d" "vd" none
          50).2.cache "b" = none
    ∧ alookup
        (AcademicCache.set AcademicCache.sample_cache "d" "vd" none
          50).2.cache "a" = some "va" := by
  obtain ⟨h1, h2⟩ := c9_cache_ttl_and_eviction
  have ha := h1 String AcademicCache.sample_cache "d" "vd" 10 50
    (by decide) (by decide)
  have hb := h2 String AcademicCache.sample_cache "d" "vd" none 50
    (by decide) (by decide) (by decide)
  refine ⟨ha.1 60 (by decide), (ha.2 61 (by decide)).1, by decide,
    hb.2.2.1 "b" (by decide) (by decide),
    hb.2.2.2 "a" "va" (by decide) (by decide) (by decide)⟩
